import Mathlib

/-!
Verification of the OPC UA binary codec module (opcua/ua/ua_binary.py).

Shallow embedding conventions: wire bytes are lists of Nat (each below 256
by construction), the decode cursor is the list of not-yet-consumed bytes
and is threaded through every decode function, Python text strings are
represented by their UTF-8 byte sequences (so UTF-8 encode and decode are
the identity of the model), Python int is Int, and fallible operations
return Option (encode side) or Except Err (decode side).
-/

set_option maxRecDepth 8000

namespace UaBinary

/-- Failure conditions of the Python code: protocol errors (UaError, called
EncodingError and DecodingError in the spec) and builtin exceptions
(struct.error, TypeError, AttributeError, ValueError, buffer exhaustion).
The fuelExhausted condition is an artifact of the fuel-indexed embedding of
the mutually recursive dispatchers; it never occurs at sufficient fuel. -/
inductive Err where
  | notEnoughData
  | unknownNodeIdEncoding
  | cannotUnpackVtype
  | parsingExtensionObjectWithoutData
  | typeError
  | attributeError
  | valueError
  | fuelExhausted
  deriving DecidableEq

/-- Little-endian byte list of a natural number, w bytes wide. -/
def natToLE (w : Nat) (n : Nat) : List Nat :=
  (List.range w).map (fun i => n / 256 ^ i % 256)

/-- Unsigned value of a little-endian byte list. -/
def leToNat : List Nat → Nat
  | [] => 0
  | b :: rest => b + 256 * leToNat rest

/-- Signed (two's complement) value of w little-endian bytes: the unsigned
value v when v is below 2 to the (8w - 1), else v minus 2 to the 8w
(written in constructor form so that it computes). -/
def leToInt (w : Nat) (bs : List Nat) : Int :=
  let v := leToNat bs
  if v < 2 ^ (8 * w - 1) then Int.ofNat v else Int.negSucc (2 ^ (8 * w) - v - 1)

/-- struct.pack of an unsigned little-endian integer: struct.error (modelled
as none) when the value is negative or too wide for the width. -/
def packUIntLE (w : Nat) (n : Int) : Option (List Nat) :=
  match n with
  | .ofNat m => if m < 2 ^ (8 * w) then some (natToLE w m) else none
  | .negSucc _ => none

/-- struct.pack of a signed little-endian integer with its range check: the
value n must satisfy -(2 to the (8w - 1)) LE n LT 2 to the (8w - 1), and is
emitted as its two's complement residue. -/
def packIntLE (w : Nat) (n : Int) : Option (List Nat) :=
  match n with
  | .ofNat m => if m < 2 ^ (8 * w - 1) then some (natToLE w m) else none
  | .negSucc m =>
    if m < 2 ^ (8 * w - 1) then some (natToLE w (2 ^ (8 * w) - (m + 1))) else none

/-- Modelled from the spec: the external cursor abstraction offers read(n),
yielding exactly n bytes or failing. The cursor is the remaining byte list. -/
def readN : Nat → List Nat → Except Err (List Nat × List Nat)
  | 0, data => .ok ([], data)
  | _ + 1, [] => .error .notEnoughData
  | n + 1, b :: rest =>
    match readN n rest with
    | .ok (bs, rest2) => .ok (b :: bs, rest2)
    | .error e => .error e

/-- Unpack an unsigned little-endian integer of the given width. -/
def unpackUIntLE (w : Nat) (data : List Nat) : Except Err (Int × List Nat) :=
  match readN w data with
  | .ok (bs, rest) => .ok ((leToNat bs : Int), rest)
  | .error e => .error e

/-- Unpack a signed little-endian integer of the given width. -/
def unpackIntLE (w : Nat) (data : List Nat) : Except Err (Int × List Nat) :=
  match readN w data with
  | .ok (bs, rest) => .ok (leToInt w bs, rest)
  | .error e => .error e

/-- The mask 1 shifted left by offset, as a Python int. -/
def maskI (offset : Nat) : Int := ((1 <<< offset : Nat) : Int)

/-- test_bit(data, offset): data AND (1 shifted left by offset). Python
truthiness: the bit is set exactly when the result is nonzero. -/
def test_bit (data : Int) (offset : Nat) : Int := Int.land data (maskI offset)

/-- set_bit(data, offset): data OR (1 shifted left by offset). -/
def set_bit (data : Int) (offset : Nat) : Int := Int.lor data (maskI offset)

/-- unset_bit(data, offset): data AND NOT (1 shifted left by offset). -/
def unset_bit (data : Int) (offset : Nat) : Int :=
  Int.land data (Int.lnot (maskI offset))

/-- January 1, 1970 as a count of 100-nanosecond FILETIME ticks. -/
def EPOCH_AS_FILETIME : Int := 116444736000000000

/-- FILETIME ticks per second. -/
def HUNDREDS_OF_NANOSECONDS : Int := 10000000

/-- Days from 0001-01-01 to January 1 of year y in the proleptic Gregorian
calendar, as used by the ordinal arithmetic of the external datetime type. -/
def daysBeforeYear (y : Nat) : Nat :=
  365 * (y - 1) + (y - 1) / 4 - (y - 1) / 100 + (y - 1) / 400

/-- A datetime instant, as microseconds since 0001-01-01T00:00:00, which is
the minimum of the external datetime type. -/
abbrev DateTimeM := Int

def microsPerDay : Int := 86400000000

/-- The minimum representable datetime, 0001-01-01T00:00:00. -/
def datetimeMin : DateTimeM := 0

/-- The maximum representable datetime, 9999-12-31T23:59:59.999999: one
microsecond before January 1 of year 10000. -/
def datetimeMax : DateTimeM := (daysBeforeYear 10000 : Int) * microsPerDay - 1

/-- 1601-01-01T00:00:00, the FILETIME epoch, as a datetime. -/
def FILETIME_EPOCH_AS_DATETIME : DateTimeM :=
  (daysBeforeYear 1601 : Int) * microsPerDay

/-- 1970-01-01T00:00:00 as a datetime, used by datetime_to_win_epoch. -/
def UNIX_EPOCH_AS_DATETIME : DateTimeM :=
  (daysBeforeYear 1970 : Int) * microsPerDay

/-- win_epoch_to_datetime(epch): FILETIME epoch plus (epch floordiv 10)
microseconds; the source catches the OverflowError of the external datetime
type (raised whenever the sum leaves the representable calendar range),
logs a warning and returns datetime(MAXYEAR, 12, 31, 23, 59, 59, 999999). -/
def win_epoch_to_datetime (epch : Int) : DateTimeM :=
  let m := FILETIME_EPOCH_AS_DATETIME + Int.fdiv epch 10
  if m < datetimeMin ∨ datetimeMax < m then datetimeMax else m

/-- datetime_to_win_epoch(dt) for a UTC instant: EPOCH_AS_FILETIME plus the
floor of the seconds since 1970 times the ticks per second, plus the
microsecond component times 10. Timezone handling collapses in the model
because instants are already UTC. -/
def datetime_to_win_epoch (dt : DateTimeM) : Int :=
  EPOCH_AS_FILETIME
    + Int.fdiv (dt - UNIX_EPOCH_AS_DATETIME) 1000000 * HUNDREDS_OF_NANOSECONDS
    + dt.emod 1000000 * 10

/-- _String.pack: absent (Python None) encodes as Int32 -1; a present value
is emitted as its 4-byte length followed by its UTF-8 bytes (text values
are modelled by their UTF-8 bytes, so the encode step is the identity). -/
def String_pack : Option (List Nat) → Option (List Nat)
  | none => packIntLE 4 (-1)
  | some s => (packIntLE 4 (Int.ofNat s.length)).map (· ++ s)

/-- _Bytes.pack delegates to _String.pack: text and binary strings share one
length-prefixed wire shape. -/
def Bytes_pack : Option (List Nat) → Option (List Nat) := String_pack

/-- _Bytes.unpack: signed 4-byte length; -1 means absent; otherwise read
exactly that many raw bytes. A negative length other than -1 reaches the
external read with a negative size, modelled as a read failure. -/
def Bytes_unpack (data : List Nat) : Except Err (Option (List Nat) × List Nat) :=
  match unpackIntLE 4 data with
  | .error e => .error e
  | .ok (len, rest) =>
    if len = -1 then .ok (none, rest)
    else
      match len with
      | .negSucc _ => .error .notEnoughData
      | .ofNat m =>
        match readN m rest with
        | .ok (bs, rest2) => .ok (some bs, rest2)
        | .error e => .error e

/-- _String.unpack delegates to _Bytes.unpack and UTF-8-decodes the result
(the identity in this model); absent passes through unchanged. -/
def String_unpack : List Nat → Except Err (Option (List Nat) × List Nat) :=
  Bytes_unpack

/-- Pack each element of a list in order, propagating the first failure
(the list comprehension building b in the source). -/
def pack_elems (packE : α → Option (List Nat)) : List α → Option (List Nat)
  | [] => some []
  | x :: xs =>
    match packE x with
    | none => none
    | some b =>
      match pack_elems packE xs with
      | none => none
      | some bs => some (b ++ bs)

/-- _Primitive.pack_array: absent encodes as the 4 bytes of -1; otherwise a
4-byte length followed by each element packed in order. -/
def pack_array (packE : α → Option (List Nat)) : Option (List α) → Option (List Nat)
  | none => some [255, 255, 255, 255]
  | some arr =>
    match pack_elems packE arr with
    | none => none
    | some bodies =>
      match packIntLE 4 (Int.ofNat arr.length) with
      | none => none
      | some lenB => some (lenB ++ bodies)

/-- Decode loop of _Primitive.unpack_array: n elements in sequence. -/
def unpack_loop (unpackE : List Nat → Except Err (α × List Nat)) :
    Nat → List Nat → Except Err (List α × List Nat)
  | 0, data => .ok ([], data)
  | n + 1, data =>
    match unpackE data with
    | .error e => .error e
    | .ok (v, rest) =>
      match unpack_loop unpackE n rest with
      | .error e => .error e
      | .ok (vs, rest2) => .ok (v :: vs, rest2)

/-- _Primitive.unpack_array: read a signed 4-byte length; -1 means absent;
0 means empty; otherwise decode that many elements. The element loop of the
source iterates over range(length), which is empty for negative lengths, so
length.toNat iterations is exact. -/
def unpack_array (unpackE : List Nat → Except Err (α × List Nat))
    (data : List Nat) : Except Err (Option (List α) × List Nat) :=
  match unpackIntLE 4 data with
  | .error e => .error e
  | .ok (len, rest) =>
    if len = -1 then .ok (none, rest)
    else if len = 0 then .ok (some [], rest)
    else
      match unpack_loop unpackE len.toNat rest with
      | .error e => .error e
      | .ok (vs, rest2) => .ok (some vs, rest2)

/-- C8: the string, byte-string and generic array codecs distinguish absent
from empty: packing absent gives exactly the four bytes of signed -1,
packing an empty value gives exactly four zero bytes, and unpacking maps a
-1 length prefix to absent and a 0 length prefix to the empty value while
consuming only the four length bytes; hence absent and empty round-trip to
themselves and never to each other. -/
theorem absent_vs_empty_roundtrip :
    (String_pack none = some [255, 255, 255, 255])
    ∧ (String_pack (some []) = some [0, 0, 0, 0])
    ∧ (Bytes_pack none = some [255, 255, 255, 255])
    ∧ (Bytes_pack (some []) = some [0, 0, 0, 0])
    ∧ (∀ rest : List Nat, String_unpack ([255, 255, 255, 255] ++ rest) = .ok (none, rest))
    ∧ (∀ rest : List Nat, String_unpack ([0, 0, 0, 0] ++ rest) = .ok (some [], rest))
    ∧ (∀ rest : List Nat, Bytes_unpack ([255, 255, 255, 255] ++ rest) = .ok (none, rest))
    ∧ (∀ rest : List Nat, Bytes_unpack ([0, 0, 0, 0] ++ rest) = .ok (some [], rest))
    ∧ (∀ (α : Type) (packE : α → Option (List Nat)),
        pack_array packE none = some [255, 255, 255, 255])
    ∧ (∀ (α : Type) (packE : α → Option (List Nat)),
        pack_array packE (some []) = some [0, 0, 0, 0])
    ∧ (∀ (α : Type) (unpackE : List Nat → Except Err (α × List Nat)) (rest : List Nat),
        unpack_array unpackE ([255, 255, 255, 255] ++ rest) = .ok (none, rest))
    ∧ (∀ (α : Type) (unpackE : List Nat → Except Err (α × List Nat)) (rest : List Nat),
        unpack_array unpackE ([0, 0, 0, 0] ++ rest) = .ok (some [], rest)) := by
  refine ⟨rfl, rfl, rfl, rfl, fun rest => rfl, fun rest => rfl, fun rest => rfl,
    fun rest => rfl, fun α packE => rfl,
    fun α packE => by simp [pack_array, pack_elems, packIntLE, natToLE],
    fun α unpackE rest => rfl, fun α unpackE rest => rfl⟩

/-- C9: win_epoch_to_datetime never fails: whenever the implied instant is
at or after the minimum calendar date, the result is the implied instant
clamped from above to 9999-12-31T23:59:59.999999 — in range it is exactly
the FILETIME epoch plus (ticks floordiv 10) microseconds, and past the
maximum date it is exactly the maximum datetime. -/
theorem win_epoch_to_datetime_spec (epch : Int)
    (h : datetimeMin ≤ FILETIME_EPOCH_AS_DATETIME + Int.fdiv epch 10) :
    win_epoch_to_datetime epch =
      if FILETIME_EPOCH_AS_DATETIME + Int.fdiv epch 10 ≤ datetimeMax
      then FILETIME_EPOCH_AS_DATETIME + Int.fdiv epch 10
      else datetimeMax := by
  unfold win_epoch_to_datetime
  by_cases hmax : FILETIME_EPOCH_AS_DATETIME + Int.fdiv epch 10 ≤ datetimeMax
  · rw [if_pos hmax, if_neg]
    intro hc
    rcases hc with h1 | h2
    · exact absurd h (not_le.mpr h1)
    · exact absurd hmax (not_le.mpr h2)
  · rw [if_neg hmax, if_pos (Or.inr (lt_of_not_le hmax))]

/-- Witness for C9 at the 1970 epoch tick count. -/
theorem win_epoch_to_datetime_spec_witness :
    (datetimeMin ≤ FILETIME_EPOCH_AS_DATETIME + Int.fdiv 116444736000000000 10)
    ∧ win_epoch_to_datetime 116444736000000000 =
        if FILETIME_EPOCH_AS_DATETIME + Int.fdiv 116444736000000000 10 ≤ datetimeMax
        then FILETIME_EPOCH_AS_DATETIME + Int.fdiv 116444736000000000 10
        else datetimeMax :=
  ⟨by decide, win_epoch_to_datetime_spec 116444736000000000 (by decide)⟩

/-- C10: for every element decoder, unpack_array applied to a cursor whose
4-byte signed length prefix is negative but not -1 returns the
present-but-empty sequence after consuming only the 4 length bytes; no
negative length causes a failure on this path. -/
theorem unpack_array_negative_length {α : Type}
    (unpackE : List Nat → Except Err (α × List Nat))
    (b0 b1 b2 b3 : Nat) (rest : List Nat) (n : Int)
    (hn : leToInt 4 [b0, b1, b2, b3] = n) (hneg : n < 0) (hne : n ≠ -1) :
    unpack_array unpackE (b0 :: b1 :: b2 :: b3 :: rest) = .ok (some [], rest) := by
  have hread : readN 4 (b0 :: b1 :: b2 :: b3 :: rest) = .ok ([b0, b1, b2, b3], rest) := rfl
  have hzero : n.toNat = 0 := Int.toNat_of_nonpos (le_of_lt hneg)
  unfold unpack_array unpackIntLE
  rw [hread]
  simp only [hn]
  rw [if_neg hne, if_neg (by omega : ¬ n = 0), hzero]
  rfl

/-- Witness for C10 at length prefix -2. -/
theorem unpack_array_negative_length_witness :
    (leToInt 4 [254, 255, 255, 255] = -2) ∧ ((-2 : Int) < 0) ∧ ((-2 : Int) ≠ -1)
    ∧ unpack_array (unpackIntLE 4) (254 :: 255 :: 255 :: 255 :: [9, 9]) = .ok (some [], [9, 9]) :=
  ⟨by decide, by decide, by decide,
    unpack_array_negative_length (unpackIntLE 4) 254 255 255 255 [9, 9] (-2)
      (by decide) (by decide) (by decide)⟩

/-- The chunking loop of reshape with explicit fuel (one unit per produced
chunk) so that the recursion is structural and computes by rfl; fuel equal
to the list length suffices whenever the chunk size is at least 1. -/
def chunksGo (ss : Nat) : Nat → List α → List (List α)
  | _, [] => []
  | 0, _ :: _ => []
  | fuel + 1, x :: xs => ((x :: xs).take ss) :: chunksGo ss fuel ((x :: xs).drop ss)

/-- The slice loop of reshape: contiguous slices flat[i : i + subsize] for
i in range(0, len(flat), subsize). A negative step makes the Python range
empty; a zero step would raise ValueError but subsize is a product of
nonzero factors and never 0 on the paths of the source, so the 0 branch is
unreachable and modelled as the empty result. -/
def pychunks (flat : List α) (ss : Int) : List (List α) :=
  match ss with
  | .ofNat 0 => []
  | .ofNat (m + 1) => chunksGo (m + 1) flat.length flat
  | .negSucc _ => []

/-- The subsize accumulation of reshape: fold the tail extents, replacing
any zero extent by 1 before multiplying. -/
def subsizeI (subdims : List Int) : Int :=
  subdims.foldl (fun acc i => acc * (if i = 0 then 1 else i)) 1

/-- Number of placeholder elements appended by the padding while-loop of
reshape: one per iteration while d0 times subsize exceeds the length. -/
def padCount (d0 ss : Int) (len : Nat) : Nat := (d0 * ss - (len : Int)).toNat

/-- reshape(flat, dims). Python lists are heterogeneous: the parameter wrap
embeds a list as a single element (the model of Python list nesting), the
placeholder appended by the padding loop is the empty list wrap [], and
each recursive result becomes one wrapped element of the enclosing list.
The first component is the return value; the second is the final state of
the caller-owned flat list, which the padding while-loop mutates in place
by appending placeholders (recursive calls operate on slice copies). An
empty dims raises IndexError at dims[0] in the source before any mutation;
no claim reaches that case and it is modelled as the unmutated input with
an empty result. -/
def reshape (wrap : List α → α) : List α → List Int → List α × List α
  | flat, [] => ([], flat)
  | flat, d0 :: subdims =>
    let subsize := subsizeI subdims
    let padded := flat ++ List.replicate (padCount d0 subsize flat.length) (wrap [])
    if subdims = [] ∨ subdims = [0] then (padded, padded)
    else ((pychunks padded subsize).map (fun c => wrap (reshape wrap c subdims).1), padded)

/-- Concrete elements for closed reshape statements: numbers and nested
lists, mirroring the heterogeneous Python lists reshape works on. -/
inductive Tree where
  | leaf : Nat → Tree
  | node : List Tree → Tree

/-- A list equals itself with a suffix appended exactly when the suffix is
empty. -/
theorem append_eq_left_iff {α : Type} (l r : List α) : l ++ r = l ↔ r = [] := by
  constructor
  · intro h
    have hlen := congrArg List.length h
    simp only [List.length_append] at hlen
    have : r.length = 0 := by omega
    exact List.eq_nil_of_length_eq_zero this
  · intro h
    simp [h]

/-- Length of the chunking loop: with positive chunk size and enough fuel,
the number of chunks is the length of the list divided by the chunk size,
rounded up. -/
theorem chunksGo_length {α : Type} {ss : Nat} (hss : 0 < ss) :
    ∀ (fuel : Nat) (l : List α), l.length ≤ fuel →
      (chunksGo ss fuel l).length = (l.length + ss - 1) / ss := by
  intro fuel
  induction fuel with
  | zero =>
    intro l hl
    match l with
    | [] => simp [chunksGo, Nat.div_eq_of_lt (by omega : ss - 1 < ss)]
    | x :: xs => simp at hl
  | succ fuel ih =>
    intro l hl
    match l with
    | [] => simp [chunksGo, Nat.div_eq_of_lt (by omega : ss - 1 < ss)]
    | x :: xs =>
      have hlen : (x :: xs).length = xs.length + 1 := by simp
      have hdlen : ((x :: xs).drop ss).length = xs.length + 1 - ss := by
        simp [List.length_drop]
      have hrec := ih ((x :: xs).drop ss) (by rw [hdlen]; simp at hl; omega)
      show ((x :: xs).take ss :: chunksGo ss fuel ((x :: xs).drop ss)).length
        = ((x :: xs).length + ss - 1) / ss
      rw [List.length_cons, hrec, hdlen, hlen]
      rcases le_or_lt (xs.length + 1) ss with hle | hlt
      · have h1 : xs.length + 1 - ss = 0 := by omega
        rw [h1]
        rw [Nat.div_eq_of_lt (by omega : 0 + ss - 1 < ss)]
        rw [Nat.div_eq_of_lt_le (by omega : 1 * ss ≤ xs.length + 1 + ss - 1)
          (by omega : xs.length + 1 + ss - 1 < (1 + 1) * ss)]
      · have h2 : xs.length + 1 - ss + ss - 1 = xs.length := by omega
        have h3 : xs.length + 1 + ss - 1 = xs.length + ss := by omega
        rw [h2, h3, Nat.add_div_right _ hss]

/-- The second component of reshape on nonempty dims is always the padded
input list (regardless of which branch of the base-case test is taken). -/
theorem reshape_post {α : Type} (wrap : List α → α) (flat : List α)
    (d0 : Int) (rest : List Int) :
    (reshape wrap flat (d0 :: rest)).2
      = flat ++ List.replicate (padCount d0 (subsizeI rest) flat.length) (wrap []) := by
  simp only [reshape]
  split <;> rfl

/-- reshape leaves the caller-owned flat list unchanged exactly when no
padding is needed: d0 times subsize at most the length. -/
theorem reshape_post_eq_iff {α : Type} (wrap : List α → α) (flat : List α)
    (d0 : Int) (rest : List Int) :
    (reshape wrap flat (d0 :: rest)).2 = flat
      ↔ d0 * subsizeI rest ≤ (flat.length : Int) := by
  rw [reshape_post, append_eq_left_iff, List.replicate_eq_nil_iff, padCount,
    Int.toNat_eq_zero, sub_nonpos]

/-- C5 counterexample: the claim says reshape returns a sequence of length
d0; on flat [1,2,3,4] with dims [1,2] the code returns 2 chunks, not 1,
because the slice loop ranges over all of flat, not just d0 slices. -/
theorem reshape_length_counterexample :
    ¬ ((reshape Tree.node [.leaf 1, .leaf 2, .leaf 3, .leaf 4] [1, 2]).1.length = 1) := by
  intro h
  have : (2 : Nat) = 1 := h
  omega

/-- C5 (amended): reshape pads flat on the right with empty placeholders up
to d0 times the slice size (zero extents counted as 1), and then: for dims
of length 1 or with tail exactly [0] it returns the padded flat (not
necessarily flat unchanged); otherwise it returns the wrapped recursively
reshaped contiguous slices of the padded flat, and the result has length
d0 whenever flat was at most d0 times the slice size (a longer flat yields
more than d0 slices). In particular reshape([1,2,3,4,5,6],[2,3]) is
[[1,2,3],[4,5,6]]. -/
theorem reshape_amended_spec :
    (∀ (α : Type) (wrap : List α → α) (flat : List α) (d0 : Int),
      reshape wrap flat [d0] =
        (flat ++ List.replicate (padCount d0 1 flat.length) (wrap []),
         flat ++ List.replicate (padCount d0 1 flat.length) (wrap [])))
    ∧ (∀ (α : Type) (wrap : List α → α) (flat : List α) (d0 : Int),
      reshape wrap flat [d0, 0] =
        (flat ++ List.replicate (padCount d0 1 flat.length) (wrap []),
         flat ++ List.replicate (padCount d0 1 flat.length) (wrap [])))
    ∧ (∀ (α : Type) (wrap : List α → α) (flat : List α) (d0 : Int) (rest : List Int),
      rest ≠ [] → rest ≠ [0] → 0 < subsizeI rest → 0 ≤ d0 →
      (flat.length : Int) ≤ d0 * subsizeI rest →
      (reshape wrap flat (d0 :: rest)).1.length = d0.toNat)
    ∧ ((reshape Tree.node [.leaf 1, .leaf 2, .leaf 3, .leaf 4, .leaf 5, .leaf 6] [2, 3]).1
        = [.node [.leaf 1, .leaf 2, .leaf 3], .node [.leaf 4, .leaf 5, .leaf 6]]) := by
  refine ⟨fun α wrap flat d0 => rfl, fun α wrap flat d0 => rfl, ?_, rfl⟩
  intro α wrap flat d0 rest hne hne0 hss hd0 hfit
  have hbranch : ¬(rest = [] ∨ rest = [0]) := by
    intro h
    rcases h with h | h
    · exact hne h
    · exact hne0 h
  obtain ⟨k, hk⟩ : ∃ k : Nat, subsizeI rest = Int.ofNat (k + 1) := by
    rcases hss' : subsizeI rest with n | n
    · rw [hss'] at hss
      match n, hss with
      | Nat.succ k, _ => exact ⟨k, rfl⟩
      | 0, h => exact absurd h (by decide)
    · rw [hss'] at hss
      exact absurd hss (by
        have := Int.negSucc_lt_zero n
        omega)
  simp only [reshape, if_neg hbranch, List.length_map]
  set P := flat ++ List.replicate (padCount d0 (subsizeI rest) flat.length) (wrap [])
    with hP
  have hPlen : P.length = (d0 * subsizeI rest).toNat := by
    rw [hP, List.length_append, List.length_replicate, padCount]
    set X := d0 * subsizeI rest with hX
    omega
  rw [hk] at hPlen hfit ⊢
  show (pychunks P (Int.ofNat (k + 1))).length = d0.toNat
  have hchunks : pychunks P (Int.ofNat (k + 1)) = chunksGo (k + 1) P.length P := rfl
  rw [hchunks, chunksGo_length (Nat.succ_pos k) P.length P le_rfl, hPlen]
  obtain ⟨m, rfl⟩ := Int.eq_ofNat_of_zero_le hd0
  have hmul : ((m : Int) * Int.ofNat (k + 1)).toNat = m * (k + 1) := by
    have h6 : (m : Int) * Int.ofNat (k + 1) = ((m * (k + 1) : Nat) : Int) := by
      push_cast [Int.ofNat_eq_natCast]
      ring
    rw [h6, Int.toNat_natCast]
  rw [hmul]
  have h5 : m * (k + 1) + (k + 1) - 1 = k + (k + 1) * m := by
    rw [Nat.mul_comm]
    omega
  rw [h5, Nat.add_mul_div_left _ _ (Nat.succ_pos k),
    Nat.div_eq_of_lt (Nat.lt_succ_self k), Nat.zero_add]
  simp

/-- Witness for the amended C5 statement at flat of length 6 and dims
[2, 3]: all hypotheses hold and the result has length 2. -/
theorem reshape_amended_spec_witness :
    (([3] : List Int) ≠ [] ∧ ([3] : List Int) ≠ [0] ∧ 0 < subsizeI [3]
      ∧ (0 : Int) ≤ 2
      ∧ ((List.length
          [Tree.leaf 1, Tree.leaf 2, Tree.leaf 3, Tree.leaf 4, Tree.leaf 5, Tree.leaf 6] : Nat) : Int)
        ≤ 2 * subsizeI [3])
    ∧ (reshape Tree.node
        [Tree.leaf 1, Tree.leaf 2, Tree.leaf 3, Tree.leaf 4, Tree.leaf 5, Tree.leaf 6]
        ((2 : Int) :: [3])).1.length = (2 : Int).toNat :=
  ⟨⟨by decide, by decide, by decide, by decide, by decide⟩,
    reshape_amended_spec.2.2.1 Tree Tree.node
      [Tree.leaf 1, Tree.leaf 2, Tree.leaf 3, Tree.leaf 4, Tree.leaf 5, Tree.leaf 6]
      2 [3] (by decide) (by decide) (by decide) (by decide) (by decide)⟩

/-- Explicit bind for Option written as a match so that it computes by
plain kernel reduction. -/
def obind : Option α → (α → Option β) → Option β
  | none, _ => none
  | some a, f => f a

/-- Explicit bind for Except Err, as a computing match. -/
def ebind : Except Err α → (α → Except Err β) → Except Err β
  | .error e, _ => .error e
  | .ok a, f => f a

/-- Big-endian byte list of a natural number, w bytes wide. -/
def natToBE (w : Nat) (n : Nat) : List Nat :=
  (List.range w).map (fun i => n / 256 ^ (w - 1 - i) % 256)

/-- Big-endian value of a byte list. -/
def beToNat (bs : List Nat) : Nat :=
  bs.foldl (fun acc b => acc * 256 + b) 0

/-- GUID value, modelled by the 16 bytes of the external UUID type (its
big-endian bytes attribute); missing positions read as 0. The host fields
time_low, time_mid, time_hi_version, clock_seq_hi_variant, clock_seq_low
and node are the corresponding big-endian slices of these bytes. -/
structure GuidVal where
  uuidBytes : List Nat
  deriving DecidableEq

/-- _Guid.pack: re-encode the 6-field host UUID into the 4-field wire
layout: 4-byte little-endian time_low, 2-byte little-endian time_mid,
2-byte little-endian time_hi_version, clock_seq_hi_variant byte,
clock_seq_low byte, then the rightmost 6 bytes of the 8-byte big-endian
encoding of node. -/
def Guid_pack (g : GuidVal) : Option (List Nat) :=
  let b := fun i => g.uuidBytes.getD i 0
  obind (packUIntLE 4 (Int.ofNat (beToNat [b 0, b 1, b 2, b 3]))) fun f1 =>
  obind (packUIntLE 2 (Int.ofNat (beToNat [b 4, b 5]))) fun f2 =>
  obind (packUIntLE 2 (Int.ofNat (beToNat [b 6, b 7]))) fun f3 =>
  obind (packUIntLE 1 (Int.ofNat (b 8))) fun f4a =>
  obind (packUIntLE 1 (Int.ofNat (b 9))) fun f4b =>
  let node := beToNat [b 10, b 11, b 12, b 13, b 14, b 15]
  obind (if node < 2 ^ 64 then some (natToBE 6 (node % 2 ^ 48)) else none) fun f4c =>
  some (f1 ++ f2 ++ f3 ++ f4a ++ f4b ++ f4c)

/-- _Guid.unpack: read the three little-endian fields and re-emit them
big-endian, then 8 raw bytes, giving the 16 UUID bytes. -/
def Guid_unpack (data : List Nat) : Except Err (GuidVal × List Nat) :=
  ebind (readN 4 data) fun p1 =>
  ebind (readN 2 p1.2) fun p2 =>
  ebind (readN 2 p2.2) fun p3 =>
  ebind (readN 8 p3.2) fun p4 =>
  .ok (⟨natToBE 4 (leToNat p1.1) ++ natToBE 2 (leToNat p2.1)
        ++ natToBE 2 (leToNat p3.1) ++ p4.1⟩, p4.2)

/-- Modelled from the spec: NodeIdType is defined by the external data
model with ordinals TwoByte=0, FourByte=1, Numeric=2, String=3, Guid=4,
ByteString=5, and the data model of the spec adds an opaque else variant
for the remaining discriminants; the spec limits discriminants to the low
6 bits of the leading byte (at most 64 values). -/
inductive NodeIdTypeM where
  | TwoByte
  | FourByte
  | Numeric
  | String
  | Guid
  | ByteString
  | Other (v : Fin 64)
  deriving DecidableEq

/-- The ordinal of a NodeIdType (its value attribute). -/
def NodeIdTypeM.val : NodeIdTypeM → Nat
  | .TwoByte => 0
  | .FourByte => 1
  | .Numeric => 2
  | .String => 3
  | .Guid => 4
  | .ByteString => 5
  | .Other v => v.val

/-- Every NodeIdType ordinal fits in the low 6 bits. -/
theorem NodeIdTypeM.val_lt (t : NodeIdTypeM) : t.val < 64 := by
  cases t with
  | Other v => exact v.isLt
  | _ => simp [NodeIdTypeM.val]

/-- Modelled from the spec: the conversion NodeIdType(low 6 bits) used by
the decoder; the six named ordinals map to their variants and any other
value is the opaque else variant, which the decode match then rejects. -/
def nodeIdTypeOfMasked (v : Fin 64) : NodeIdTypeM :=
  if v.val = 0 then .TwoByte
  else if v.val = 1 then .FourByte
  else if v.val = 2 then .Numeric
  else if v.val = 3 then .String
  else if v.val = 4 then .Guid
  else if v.val = 5 then .ByteString
  else .Other v

/-- The Identifier slot of a NodeId: an int, text (possibly absent), raw
bytes (possibly absent), a GUID, an opaque self-encoding payload (the
output of its own to_binary method), or None. -/
inductive Ident where
  | inum (n : Int)
  | istr (s : Option (List Nat))
  | ibytes (s : Option (List Nat))
  | iguid (g : GuidVal)
  | iself (b : List Nat)
  | inone
  deriving DecidableEq

/-- The NodeId record of the external data model: discriminant, namespace
index, identifier, and the optional extended fields populated only by
decode. -/
structure NodeIdM where
  NodeIdType : NodeIdTypeM
  NamespaceIndex : Int
  Identifier : Ident
  NamespaceUri : Option (List Nat)
  ServerIndex : Option Int
  deriving DecidableEq

/-- Modelled from the spec: the zero NodeId produced by the external
default constructor NodeId(): TwoByte, namespace 0, identifier 0. -/
def defaultNodeId : NodeIdM := ⟨.TwoByte, 0, .inum 0, none, none⟩

/-- The per-discriminant payload of nodeid_to_binary after the leading
discriminant byte: namespace and identifier in the exact struct formats of
the source; a value of the wrong shape for its discriminant fails like
struct.pack or a missing attribute does. -/
def nodeid_body : NodeIdTypeM → Int → Ident → Option (List Nat)
  | .TwoByte, _, .inum n => packUIntLE 1 n
  | .TwoByte, _, _ => none
  | .FourByte, ns, .inum n =>
    obind (packUIntLE 1 ns) fun nsb =>
    obind (packUIntLE 2 n) fun ib => some (nsb ++ ib)
  | .FourByte, _, _ => none
  | .Numeric, ns, .inum n =>
    obind (packUIntLE 2 ns) fun nsb =>
    obind (packUIntLE 4 n) fun ib => some (nsb ++ ib)
  | .Numeric, _, _ => none
  | .String, ns, id =>
    obind (packUIntLE 2 ns) fun nsb =>
    obind (match id with
           | .istr s => String_pack s
           | .ibytes s => String_pack s
           | .inone => String_pack none
           | _ => none) fun ib => some (nsb ++ ib)
  | .ByteString, ns, id =>
    obind (packUIntLE 2 ns) fun nsb =>
    obind (match id with
           | .istr s => Bytes_pack s
           | .ibytes s => Bytes_pack s
           | .inone => Bytes_pack none
           | _ => none) fun ib => some (nsb ++ ib)
  | .Guid, ns, .iguid g =>
    obind (packUIntLE 2 ns) fun nsb =>
    obind (Guid_pack g) fun ib => some (nsb ++ ib)
  | .Guid, _, _ => none
  | .Other _, ns, .iself b =>
    obind (packUIntLE 2 ns) fun nsb => some (nsb ++ b)
  | .Other _, _, _ => none

/-- nodeid_to_binary: the leading byte is the NodeIdType ordinal (packed as
one unsigned byte), followed by the per-discriminant payload. The source
never reads NamespaceUri or ServerIndex and never sets bits 6 or 7 of the
leading byte (the FIXME of the source). -/
def nodeid_to_binary (nodeid : NodeIdM) : Option (List Nat) :=
  obind (packUIntLE 1 (Int.ofNat nodeid.NodeIdType.val)) fun b0 =>
  obind (nodeid_body nodeid.NodeIdType nodeid.NamespaceIndex nodeid.Identifier) fun body =>
  some (b0 ++ body)

/-- Decode of the optional extended NodeId fields: bit 7 of the leading
byte means a length-prefixed NamespaceUri follows, bit 6 a 4-byte
ServerIndex (a decoded absent string is stored as-is). -/
def nodeid_extras (encoding : Nat) (nid : NodeIdM) (r : List Nat) :
    Except Err (NodeIdM × List Nat) :=
  ebind (if test_bit (Int.ofNat encoding) 7 = 0 then .ok (nid, r)
         else ebind (String_unpack r) fun p =>
           .ok ({ nid with NamespaceUri := p.1 }, p.2)) fun q =>
  if test_bit (Int.ofNat encoding) 6 = 0 then .ok q
  else ebind (unpackUIntLE 4 q.2) fun p =>
    .ok ({ q.1 with ServerIndex := some p.1 }, p.2)

/-- nodeid_from_binary: read the leading byte, select the discriminant from
its low 6 bits, decode the discriminant-specific fields, then the extended
fields selected by bits 7 and 6. The opaque else variant raises the
unknown-NodeId-encoding error. -/
def nodeid_from_binary (data : List Nat) : Except Err (NodeIdM × List Nat) :=
  ebind (readN 1 data) fun p0 =>
  let encoding := p0.1.headD 0
  let masked : Fin 64 := ⟨encoding &&& 63,
    Nat.lt_of_le_of_lt Nat.and_le_right (by norm_num)⟩
  ebind
    (match nodeIdTypeOfMasked masked with
     | .TwoByte =>
       ebind (readN 1 p0.2) fun p =>
       .ok ({ defaultNodeId with
              NodeIdType := .TwoByte,
              Identifier := .inum (Int.ofNat (p.1.headD 0)) }, p.2)
     | .FourByte =>
       ebind (readN 3 p0.2) fun p =>
       .ok ({ defaultNodeId with
              NodeIdType := .FourByte,
              NamespaceIndex := Int.ofNat (p.1.headD 0),
              Identifier := .inum (Int.ofNat (leToNat (p.1.drop 1))) }, p.2)
     | .Numeric =>
       ebind (readN 6 p0.2) fun p =>
       .ok ({ defaultNodeId with
              NodeIdType := .Numeric,
              NamespaceIndex := Int.ofNat (leToNat (p.1.take 2)),
              Identifier := .inum (Int.ofNat (leToNat (p.1.drop 2))) }, p.2)
     | .String =>
       ebind (unpackUIntLE 2 p0.2) fun pns =>
       ebind (String_unpack pns.2) fun pid =>
       .ok ({ defaultNodeId with
              NodeIdType := .String,
              NamespaceIndex := pns.1,
              Identifier := .istr pid.1 }, pid.2)
     | .ByteString =>
       ebind (unpackUIntLE 2 p0.2) fun pns =>
       ebind (Bytes_unpack pns.2) fun pid =>
       .ok ({ defaultNodeId with
              NodeIdType := .ByteString,
              NamespaceIndex := pns.1,
              Identifier := .ibytes pid.1 }, pid.2)
     | .Guid =>
       ebind (unpackUIntLE 2 p0.2) fun pns =>
       ebind (Guid_unpack pns.2) fun pid =>
       .ok ({ defaultNodeId with
              NodeIdType := .Guid,
              NamespaceIndex := pns.1,
              Identifier := .iguid pid.1 }, pid.2)
     | .Other _ => .error .unknownNodeIdEncoding) fun q =>
  nodeid_extras encoding q.1 q.2

/-- C4: for every input stream whose leading byte has a low-6-bit value
that is not one of the six recognized NodeId discriminants,
nodeid_from_binary fails with the DecodingError (unknown NodeId encoding)
rather than returning a NodeId. -/
theorem nodeid_from_binary_unknown_encoding (b : Nat) (rest : List Nat)
    (h : 5 < b &&& 63) :
    nodeid_from_binary (b :: rest) = .error .unknownNodeIdEncoding := by
  have hread : readN 1 (b :: rest) = .ok ([b], rest) := rfl
  unfold nodeid_from_binary
  rw [hread]
  simp only [ebind, List.headD]
  have h0 : ¬(b &&& 63 = 0) := by omega
  have h1 : ¬(b &&& 63 = 1) := by omega
  have h2 : ¬(b &&& 63 = 2) := by omega
  have h3 : ¬(b &&& 63 = 3) := by omega
  have h4 : ¬(b &&& 63 = 4) := by omega
  have h5 : ¬(b &&& 63 = 5) := by omega
  simp only [nodeIdTypeOfMasked, if_neg h0, if_neg h1, if_neg h2, if_neg h3,
    if_neg h4, if_neg h5]

/-- Witness for C4 at leading byte 6. -/
theorem nodeid_from_binary_unknown_encoding_witness :
    (5 < 6 &&& 63) ∧ nodeid_from_binary [6] = .error .unknownNodeIdEncoding :=
  ⟨by decide, nodeid_from_binary_unknown_encoding 6 [] (by decide)⟩

/-- C6: the bytes of nodeid_to_binary depend only on NodeIdType,
NamespaceIndex and Identifier (NamespaceUri and ServerIndex never
influence the output: no bytes are emitted for them), and every successful
encoding starts with the NodeIdType ordinal as its leading byte, whose
bits 6 and 7 are clear. -/
theorem nodeid_to_binary_ignores_extended :
    (∀ (t : NodeIdTypeM) (ns : Int) (id : Ident) (u1 u2 : Option (List Nat))
       (s1 s2 : Option Int),
      nodeid_to_binary ⟨t, ns, id, u1, s1⟩ = nodeid_to_binary ⟨t, ns, id, u2, s2⟩)
    ∧ (∀ (n : NodeIdM) (bs : List Nat), nodeid_to_binary n = some bs →
      ∃ tl, bs = n.NodeIdType.val :: tl
        ∧ Nat.testBit n.NodeIdType.val 7 = false
        ∧ Nat.testBit n.NodeIdType.val 6 = false) := by
  constructor
  · intro t ns id u1 u2 s1 s2
    rfl
  · intro n bs h
    have hval := NodeIdTypeM.val_lt n.NodeIdType
    unfold nodeid_to_binary at h
    have hpack : packUIntLE 1 (Int.ofNat n.NodeIdType.val) = some [n.NodeIdType.val] := by
      show (if n.NodeIdType.val < 2 ^ (8 * 1) then
        some (natToLE 1 n.NodeIdType.val) else none) = some [n.NodeIdType.val]
      rw [if_pos (by omega : n.NodeIdType.val < 2 ^ (8 * 1))]
      unfold natToLE
      simp [List.range_succ, Nat.mod_eq_of_lt (by omega : n.NodeIdType.val < 256)]
    rw [hpack] at h
    simp only [obind] at h
    cases hbody : nodeid_body n.NodeIdType n.NamespaceIndex n.Identifier with
    | none =>
      rw [hbody] at h
      exact absurd h (by simp [obind])
    | some body =>
      rw [hbody] at h
      simp only [obind, Option.some.injEq] at h
      exact ⟨body, by simp [← h],
        Nat.testBit_lt_two_pow (by omega),
        Nat.testBit_lt_two_pow (by omega)⟩

/-- Witness for C6 at a TwoByte NodeId with populated NamespaceUri and
ServerIndex: they are ignored and the leading byte is the ordinal 0. -/
theorem nodeid_to_binary_ignores_extended_witness :
    (nodeid_to_binary ⟨.TwoByte, 0, .inum 5, some [97], some 3⟩ = some [0, 5])
    ∧ ∃ tl, [0, 5] = NodeIdTypeM.val .TwoByte :: tl
        ∧ Nat.testBit (NodeIdTypeM.val .TwoByte) 7 = false
        ∧ Nat.testBit (NodeIdTypeM.val .TwoByte) 6 = false :=
  ⟨rfl, nodeid_to_binary_ignores_extended.2 ⟨.TwoByte, 0, .inum 5, some [97], some 3⟩
    [0, 5] rfl⟩

/-- A VariantType member of the external enumeration: its name and ordinal
(the name and value attributes read by the dispatchers). -/
structure VType where
  name : String
  value : Nat
  deriving DecidableEq

/-- Modelled from the spec: the external ordinal-to-VariantType table for
the built-in kinds (ordinals 0 to 25), consumed by variant decode. -/
def builtinVTypes : List VType :=
  [⟨"Null", 0⟩, ⟨"Boolean", 1⟩, ⟨"SByte", 2⟩, ⟨"Byte", 3⟩, ⟨"Int16", 4⟩,
   ⟨"UInt16", 5⟩, ⟨"Int32", 6⟩, ⟨"UInt32", 7⟩, ⟨"Int64", 8⟩, ⟨"UInt64", 9⟩,
   ⟨"Float", 10⟩, ⟨"Double", 11⟩, ⟨"String", 12⟩, ⟨"DateTime", 13⟩,
   ⟨"Guid", 14⟩, ⟨"ByteString", 15⟩, ⟨"XmlElement", 16⟩, ⟨"NodeId", 17⟩,
   ⟨"ExpandedNodeId", 18⟩, ⟨"StatusCode", 19⟩, ⟨"QualifiedName", 20⟩,
   ⟨"LocalizedText", 21⟩, ⟨"ExtensionObject", 22⟩, ⟨"DataValue", 23⟩,
   ⟨"Variant", 24⟩, ⟨"DiagnosticInfo", 25⟩]

/-- Modelled from the spec: ua.datatype_to_varianttype, the external
ordinal lookup; an ordinal outside the table fails. -/
def datatype_to_varianttype (i : Nat) : Option VType :=
  builtinVTypes.find? (fun t => t.value == i)

/-- The generic ExtensionObject carrier of the external data model. -/
structure ExtObjVal where
  TypeId : NodeIdM
  Encoding : Nat
  Body : Option (List Nat)
  deriving DecidableEq

/-- The transport Header record of the external data model. MessageType
and ChunkType are byte strings; body_size, packet_size and ChannelId are
ints. -/
structure HeaderVal where
  MessageType : List Nat
  ChunkType : List Nat
  packet_size : Int
  body_size : Int
  ChannelId : Int
  deriving DecidableEq

mutual

/-- The dynamic value universe of the embedding: every Python value shape
the codec dispatches on. Text strings carry their UTF-8 bytes; floats
carry their IEEE-754 bit patterns (the codec never computes with them);
datetimes carry the microsecond instant of the time model; structured
records carry their class descriptor and attribute map. -/
inductive UaVal where
  | vnone
  | vint (n : Int)
  | vbool (b : Bool)
  | vstr (s : List Nat)
  | vbytes (b : List Nat)
  | vfloat32 (bits : Nat)
  | vfloat64 (bits : Nat)
  | vdatetime (micro : Int)
  | vguid (g : GuidVal)
  | vnodeid (n : NodeIdM)
  | vheader (h : HeaderVal)
  | venum (n : Int)
  | vextobj (e : ExtObjVal)
  | vlist (xs : List UaVal)
  | vvariant (v : VariantVal)
  | vstruct (desc : ClassDesc) (fields : List (String × UaVal))

inductive VariantVal where
  | mk (VariantType : VType) (Value : UaVal) (Dimensions : Option (List Int))
       (is_array : Bool)

inductive ClassDesc where
  | mk (name : String) (ua_types : List (String × String))
       (ua_switches : Option (List (String × String × Nat)))
       (defaults : List (String × UaVal))

end

def VariantVal.VariantType : VariantVal → VType
  | .mk t _ _ _ => t

def VariantVal.Value : VariantVal → UaVal
  | .mk _ v _ _ => v

def VariantVal.Dimensions : VariantVal → Option (List Int)
  | .mk _ _ d _ => d

def VariantVal.is_array : VariantVal → Bool
  | .mk _ _ _ a => a

def ClassDesc.name : ClassDesc → String
  | .mk n _ _ _ => n

def ClassDesc.ua_types : ClassDesc → List (String × String)
  | .mk _ t _ _ => t

def ClassDesc.ua_switches : ClassDesc → Option (List (String × String × Nat))
  | .mk _ _ s _ => s

def ClassDesc.defaults : ClassDesc → List (String × UaVal)
  | .mk _ _ _ d => d

/-- The Python argument universe of from_binary and struct_from_binary:
a type-tag string, a cursor, or a class object (the source passes all
three shapes through these two parameters). -/
inductive PyArg where
  | tag (s : String)
  | buf (b : List Nat)
  | cls (c : ClassDesc)

/-- The ambient module state the codec reads: the uatypes class namespace
(getattr(ua, name)), the class-name-to-TypeId registry and the
TypeId-to-class registry of the ExtensionObject codec. All are external
and passed explicitly in the model. -/
structure Env where
  classes : String → Option ClassDesc
  extension_object_ids : String → Option NodeIdM
  extension_object_classes : List (NodeIdM × ClassDesc)

/-- The names that hasattr(Primitives, name) recognizes. -/
def primNames : List String :=
  ["Int8", "SByte", "Int16", "Int32", "Int64", "UInt8", "Char", "Byte",
   "UInt16", "UInt32", "UInt64", "Boolean", "Double", "Float", "Null",
   "String", "Bytes", "ByteString", "CharArray", "DateTime", "Guid"]

def isPrimName (s : String) : Bool := primNames.contains s

/-- uatype.startswith("ListOf") together with uatype[6:], on the character
list of the tag so that it computes. -/
def listOfTag (s : String) : Option String :=
  if s.toList.take 6 = "ListOf".toList then some ⟨s.toList.drop 6⟩ else none

def packIntVal (w : Nat) : UaVal → Option (List Nat)
  | .vint n => packIntLE w n
  | _ => none

def packUIntVal (w : Nat) : UaVal → Option (List Nat)
  | .vint n => packUIntLE w n
  | _ => none

/-- getattr(Primitives, name).pack(value): the per-kind primitive encoders
with their struct.pack value checks; a value of the wrong runtime shape
fails like struct.pack does. -/
def primitives_pack (name : String) (v : UaVal) : Option (List Nat) :=
  if name = "Int8" ∨ name = "SByte" then packIntVal 1 v
  else if name = "Int16" then packIntVal 2 v
  else if name = "Int32" then packIntVal 4 v
  else if name = "Int64" then packIntVal 8 v
  else if name = "UInt8" ∨ name = "Char" ∨ name = "Byte" then packUIntVal 1 v
  else if name = "UInt16" then packUIntVal 2 v
  else if name = "UInt32" then packUIntVal 4 v
  else if name = "UInt64" then packUIntVal 8 v
  else if name = "Boolean" then
    (match v with
     | .vbool b => some [if b then 1 else 0]
     | _ => none)
  else if name = "Float" then
    (match v with
     | .vfloat32 bits => if bits < 2 ^ 32 then some (natToLE 4 bits) else none
     | _ => none)
  else if name = "Double" then
    (match v with
     | .vfloat64 bits => if bits < 2 ^ 64 then some (natToLE 8 bits) else none
     | _ => none)
  else if name = "Null" then some []
  else if name = "String" ∨ name = "CharArray" then
    (match v with
     | .vnone => String_pack none
     | .vstr s => String_pack (some s)
     | .vbytes s => String_pack (some s)
     | _ => none)
  else if name = "Bytes" ∨ name = "ByteString" then
    (match v with
     | .vnone => Bytes_pack none
     | .vstr s => Bytes_pack (some s)
     | .vbytes s => Bytes_pack (some s)
     | _ => none)
  else if name = "DateTime" then
    (match v with
     | .vdatetime m => packIntLE 8 (datetime_to_win_epoch m)
     | _ => none)
  else if name = "Guid" then
    (match v with
     | .vguid g => Guid_pack g
     | _ => none)
  else none

/-- getattr(Primitives, name).unpack(cursor): the per-kind primitive
decoders. -/
def primitives_unpack (name : String) (data : List Nat) :
    Except Err (UaVal × List Nat) :=
  if name = "Int8" ∨ name = "SByte" then
    ebind (unpackIntLE 1 data) fun p => .ok (.vint p.1, p.2)
  else if name = "Int16" then
    ebind (unpackIntLE 2 data) fun p => .ok (.vint p.1, p.2)
  else if name = "Int32" then
    ebind (unpackIntLE 4 data) fun p => .ok (.vint p.1, p.2)
  else if name = "Int64" then
    ebind (unpackIntLE 8 data) fun p => .ok (.vint p.1, p.2)
  else if name = "UInt8" ∨ name = "Char" ∨ name = "Byte" then
    ebind (unpackUIntLE 1 data) fun p => .ok (.vint p.1, p.2)
  else if name = "UInt16" then
    ebind (unpackUIntLE 2 data) fun p => .ok (.vint p.1, p.2)
  else if name = "UInt32" then
    ebind (unpackUIntLE 4 data) fun p => .ok (.vint p.1, p.2)
  else if name = "UInt64" then
    ebind (unpackUIntLE 8 data) fun p => .ok (.vint p.1, p.2)
  else if name = "Boolean" then
    ebind (readN 1 data) fun p => .ok (.vbool (p.1.headD 0 != 0), p.2)
  else if name = "Float" then
    ebind (readN 4 data) fun p => .ok (.vfloat32 (leToNat p.1), p.2)
  else if name = "Double" then
    ebind (readN 8 data) fun p => .ok (.vfloat64 (leToNat p.1), p.2)
  else if name = "Null" then .ok (.vnone, data)
  else if name = "String" ∨ name = "CharArray" then
    ebind (String_unpack data) fun p =>
    .ok ((match p.1 with
          | none => .vnone
          | some s => .vstr s), p.2)
  else if name = "Bytes" ∨ name = "ByteString" then
    ebind (Bytes_unpack data) fun p =>
    .ok ((match p.1 with
          | none => .vnone
          | some s => .vbytes s), p.2)
  else if name = "DateTime" then
    ebind (unpackIntLE 8 data) fun p => .ok (.vdatetime (win_epoch_to_datetime p.1), p.2)
  else if name = "Guid" then
    ebind (Guid_unpack data) fun p => .ok (.vguid p.1, p.2)
  else .error .cannotUnpackVtype

/-- getattr on the attribute map of a record: first matching name. -/
def lookupField : List (String × UaVal) → String → Option UaVal
  | [], _ => none
  | (k, v) :: rest, name => if k = name then some v else lookupField rest name

/-- setattr on the attribute map of a record: replace the first matching
name or append. -/
def setField : List (String × UaVal) → String → UaVal → List (String × UaVal)
  | [], name, v => [(name, v)]
  | (k, w) :: rest, name, v =>
    if k = name then (name, v) :: rest else (k, w) :: setField rest name v

/-- Lookup in the ua_switches dictionary: field name to (container field
name, bit index). -/
def lookupSw : List (String × String × Nat) → String → Option (String × Nat)
  | [], _ => none
  | (k, c, i) :: rest, name => if k = name then some (c, i) else lookupSw rest name

/-- Lookup in the TypeId-to-class registry of the ExtensionObject codec. -/
def lookupEoClass : List (NodeIdM × ClassDesc) → NodeIdM → Option ClassDesc
  | [], _ => none
  | (k, c) :: rest, tid => if k = tid then some c else lookupEoClass rest tid

def isNoneVal : UaVal → Bool
  | .vnone => true
  | _ => false

def isListVal : UaVal → Bool
  | .vlist _ => true
  | _ => false

/-- The int value of an attribute, when it is an int: the bitwise OR in the
switch loop succeeds only on ints. -/
def intOf : UaVal → Option Int
  | .vint m => some m
  | _ => none

/-- Identifier == 0 as Python evaluates it: only an int identifier can
compare equal to 0. -/
def identIsZero : Ident → Bool
  | .inum n => n == 0
  | _ => false

/-- The switch loop at the top of struct_to_binary: for each declared
(optional field, (container field, bit index)) entry in order, if the
optional field is currently non-absent, OR the bit mask into the container
field value in place. A missing attribute or a non-int container raises. -/
def applySwitchesGo : List (String × String × Nat) → List (String × UaVal) →
    Option (List (String × UaVal))
  | [], fields => some fields
  | (name, container_name, idx) :: rest, fields =>
    match lookupField fields name with
    | none => none
    | some member =>
      if isNoneVal member then applySwitchesGo rest fields
      else
        match lookupField fields container_name with
        | none => none
        | some w =>
          match intOf w with
          | none => none
          | some m =>
            applySwitchesGo rest
              (setField fields container_name (.vint (Int.lor m (maskI idx))))

/-- Modelled from the spec: the to_binary method of the external generic
ExtensionObject carrier emits TypeId, the Encoding byte and, when a body
is present, the body as a length-prefixed byte string. -/
def extobj_own_binary (e : ExtObjVal) : Option (List Nat) :=
  obind (nodeid_to_binary e.TypeId) fun tb =>
  obind (packUIntLE 1 (Int.ofNat e.Encoding)) fun eb =>
  match e.Body with
  | none => some (tb ++ eb)
  | some body => obind (Bytes_pack (some body)) fun bb => some (tb ++ eb ++ bb)

/-- The secure-channel message kinds by their 3-byte codes OPN, CLO, MSG. -/
def isSecureMsg (mt : List Nat) : Bool :=
  mt == [79, 80, 78] || mt == [67, 76, 79] || mt == [77, 83, 71]

/-- header_to_binary: 3-byte MessageType and 1-byte ChunkType (padded and
truncated like struct.pack with the 3s and s formats), a 4-byte size of
body_size + 8 (+4 for the trailing ChannelId of the three secure-channel
kinds), then the ChannelId when secure. -/
def header_to_binary (hdr : HeaderVal) : Option (List Nat) :=
  let mt := hdr.MessageType.take 3 ++ List.replicate (3 - hdr.MessageType.length) 0
  let ct := hdr.ChunkType.take 1 ++ List.replicate (1 - hdr.ChunkType.length) 0
  let size : Int := hdr.body_size + 8 + (if isSecureMsg hdr.MessageType then 4 else 0)
  obind (packUIntLE 4 size) fun sb =>
  if isSecureMsg hdr.MessageType then
    obind (packUIntLE 4 hdr.ChannelId) fun cb => some (mt ++ ct ++ sb ++ cb)
  else some (mt ++ ct ++ sb)

/-- header_from_string: read the fixed 8 bytes, derive body_size =
packet_size - 8, and for the secure-channel kinds subtract 4 more and read
the trailing ChannelId. -/
def header_from_string (data : List Nat) : Except Err (HeaderVal × List Nat) :=
  ebind (readN 8 data) fun p =>
  let mt := p.1.take 3
  let ct := [p.1.getD 3 0]
  let psize : Int := Int.ofNat (leToNat (p.1.drop 4))
  if isSecureMsg mt then
    ebind (unpackUIntLE 4 p.2) fun pc =>
    .ok (⟨mt, ct, psize, psize - 8 - 4, pc.1⟩, pc.2)
  else .ok (⟨mt, ct, psize, psize - 8, 0⟩, p.2)

/-- The body read of extensionobject_from_binary: if bit 0 of the Encoding
byte is set, read a 4-byte length; a length below 1 yields an explicit
empty buffer; otherwise the body is an independent copy of that many bytes
and the main cursor skips them (skip fails past the end). -/
def eo_read_body (Encoding : Nat) (b : List Nat) :
    Except Err (Option (List Nat) × List Nat) :=
  if Encoding &&& 1 ≠ 0 then
    ebind (unpackIntLE 4 b) fun p =>
    (match p.1 with
     | .ofNat 0 => .ok (some [], p.2)
     | .negSucc _ => .ok (some [], p.2)
     | .ofNat (m + 1) =>
       if m + 1 ≤ p.2.length then .ok (some (p.2.take (m + 1)), p.2.drop (m + 1))
       else .error .notEnoughData)
  else .ok (none, b)

mutual

/-- to_binary(val, uatype): dispatch on the runtime shape of val — a
primitive tag packs via the primitive set; an enumeration member packs as
the UInt32 of its ordinal; NodeId, Header, Variant and structured records
go to their codecs; the tag ExtensionObject goes to the envelope codec;
anything else raises. The returned value is the post-call state of the
caller-owned argument (Variant and structured-record encode mutate it).
The fuel argument only bounds the recursion depth of the embedding. -/
def to_binary (env : Env) : Nat → UaVal → Option String → Option (List Nat × UaVal)
  | 0, _, _ => none
  | fuel + 1, val, uatype =>
    if (match uatype with
        | some s => isPrimName s
        | none => false) then
      match uatype with
      | some s =>
        (match primitives_pack s val with
         | none => none
         | some bs => some (bs, val))
      | none => none
    else
      match val with
      | .venum n =>
        (match packUIntLE 4 n with
         | none => none
         | some bs => some (bs, val))
      | .vnodeid nd =>
        (match nodeid_to_binary nd with
         | none => none
         | some bs => some (bs, val))
      | .vheader h =>
        (match header_to_binary h with
         | none => none
         | some bs => some (bs, val))
      | .vvariant v =>
        (match variant_to_binary env fuel v with
         | (some bs, v2) => some (bs, .vvariant v2)
         | (none, _) => none)
      | .vstruct c fields =>
        (match struct_to_binary env fuel c fields with
         | none => none
         | some (bs, fields2) => some (bs, .vstruct c fields2))
      | other =>
        if uatype = some "ExtensionObject" then
          (match extensionobject_to_binary env fuel other with
           | none => none
           | some bs => some (bs, other))
        else none

/-- struct_to_binary(record): first the switch loop sets the container
bits for every non-absent optional field (mutating the record), then the
declared fields are emitted in order. Returns the bytes and the post-call
attribute map. -/
def struct_to_binary (env : Env) : Nat → ClassDesc → List (String × UaVal) →
    Option (List Nat × List (String × UaVal))
  | 0, _, _ => none
  | fuel + 1, c, fields =>
    match (match c.ua_switches with
           | none => some fields
           | some sw => applySwitchesGo sw fields) with
    | none => none
    | some fields1 => struct_fields_to_binary env fuel c c.ua_types fields1

/-- The field loop of struct_to_binary: a ListOf field goes through
list_to_binary; a switch-guarded field whose current value is absent is
skipped entirely; every other field is emitted via to_binary. Attribute
values are updated with the post-call states of the nested encoders. -/
def struct_fields_to_binary (env : Env) : Nat → ClassDesc →
    List (String × String) → List (String × UaVal) →
    Option (List Nat × List (String × UaVal))
  | 0, _, _, _ => none
  | _ + 1, _, [], fields => some ([], fields)
  | fuel + 1, c, (name, uatype) :: restFields, fields =>
    match lookupField fields name with
    | none => none
    | some val =>
      match listOfTag uatype with
      | some elemT =>
        (match list_to_binary env fuel val elemT with
         | none => none
         | some (bs, val2) =>
           match struct_fields_to_binary env fuel c restFields (setField fields name val2) with
           | none => none
           | some (bs2, fields2) => some (bs ++ bs2, fields2))
      | none =>
        if c.ua_switches.isSome && isNoneVal val
            && (match c.ua_switches with
                | some sw => (lookupSw sw name).isSome
                | none => false) then
          struct_fields_to_binary env fuel c restFields fields
        else
          match to_binary env fuel val (some uatype) with
          | none => none
          | some (bs, val2) =>
            match struct_fields_to_binary env fuel c restFields (setField fields name val2) with
            | none => none
            | some (bs2, fields2) => some (bs ++ bs2, fields2)

/-- list_to_binary(sequence, elementTag): absent encodes as the 4 bytes of
-1; else a 4-byte count then each element via to_binary; a non-sequence
fails at len(). -/
def list_to_binary (env : Env) : Nat → UaVal → String → Option (List Nat × UaVal)
  | 0, _, _ => none
  | fuel + 1, val, uatype =>
    match val with
    | .vnone =>
      (match packIntLE 4 (-1) with
       | none => none
       | some bs => some (bs, .vnone))
    | .vlist xs =>
      (match packIntLE 4 (Int.ofNat xs.length) with
       | none => none
       | some lenB =>
         match list_elems_to_binary env fuel xs uatype with
         | none => none
         | some (bs, xs2) => some (lenB ++ bs, .vlist xs2))
    | _ => none

/-- Element loop of list_to_binary. -/
def list_elems_to_binary (env : Env) : Nat → List UaVal → String →
    Option (List Nat × List UaVal)
  | 0, _, _ => none
  | _ + 1, [], _ => some ([], [])
  | fuel + 1, x :: xs, uatype =>
    match to_binary env fuel x (some uatype) with
    | none => none
    | some (bs, x2) =>
      match list_elems_to_binary env fuel xs uatype with
      | none => none
      | some (bs2, xs2) => some (bs ++ bs2, x2 :: xs2)

/-- variant_to_binary(var): the tag byte is the low 6 bits of the ordinal;
when the value is an array (the flag or a runtime sequence) the source
first assigns var.is_array = True (mutating the argument), sets bit 7,
sets bit 6 when Dimensions is present, then emits the flattened value via
the array dispatcher and the dimensions as an Int32 array; a scalar emits
the tag and one dispatched value. The second component is the post-call
variant. -/
def variant_to_binary (env : Env) : Nat → VariantVal →
    Option (List Nat) × VariantVal
  | 0, var => (none, var)
  | fuel + 1, var =>
    let encoding : Int := Int.ofNat (var.VariantType.value &&& 63)
    if var.is_array || isListVal var.Value then
      let var2 := VariantVal.mk var.VariantType var.Value var.Dimensions true
      let enc1 := set_bit encoding 7
      let enc2 := if var.Dimensions.isSome then set_bit enc1 6 else enc1
      let res : Option (List Nat) :=
        match packUIntLE 1 enc2 with
        | none => none
        | some tagB =>
          match flatten env fuel var.Value with
          | none => none
          | some flatOpt =>
            match pack_uatype_array env fuel var.VariantType flatOpt with
            | none => none
            | some arrB =>
              match var.Dimensions with
              | none => some (tagB ++ arrB)
              | some dims =>
                match pack_uatype_array env fuel ⟨"Int32", 6⟩
                    (some (dims.map UaVal.vint)) with
                | none => none
                | some dimB => some (tagB ++ arrB ++ dimB)
      (res, var2)
    else
      match packUIntLE 1 encoding with
      | none => (none, var)
      | some tagB =>
        match pack_uatype env fuel var.VariantType var.Value with
        | none => (none, var)
        | some vB => (some (tagB ++ vB), var)

/-- Modelled from the spec: ua.flatten — a fully flattened copy of a
nested sequence; None passes through as None; a non-sequence raises. -/
def flatten (env : Env) : Nat → UaVal → Option (Option (List UaVal))
  | 0, _ => none
  | _ + 1, .vnone => some none
  | fuel + 1, .vlist xs =>
    (match flattenList env fuel xs with
     | none => none
     | some ys => some (some ys))
  | _ + 1, _ => none

/-- Flatten the elements of a sequence, splicing nested sequences. -/
def flattenList (env : Env) : Nat → List UaVal → Option (List UaVal)
  | 0, _ => none
  | _ + 1, [] => some []
  | fuel + 1, .vlist ys :: xs =>
    (match flattenList env fuel ys with
     | none => none
     | some fy =>
       match flattenList env fuel xs with
       | none => none
       | some fx => some (fy ++ fx))
  | fuel + 1, x :: xs =>
    (match flattenList env fuel xs with
     | none => none
     | some fx => some (x :: fx))

/-- pack_uatype(vtype, value): a primitive name packs via the primitive
set; an ordinal above 25 transports the value as a raw byte string; the
ExtensionObject kind goes to the envelope codec; otherwise the value
encodes itself via its own to_binary method (modelled from the spec: the
generated classes of the external data model delegate to the generic
structured-record encode; NodeId, Variant, Header and the ExtensionObject
carrier delegate to their codecs; any other value raises). -/
def pack_uatype (env : Env) : Nat → VType → UaVal → Option (List Nat)
  | 0, _, _ => none
  | fuel + 1, vtype, value =>
    if isPrimName vtype.name then primitives_pack vtype.name value
    else if 25 < vtype.value then
      (match value with
       | .vnone => Bytes_pack none
       | .vstr s => Bytes_pack (some s)
       | .vbytes s => Bytes_pack (some s)
       | _ => none)
    else if vtype.name = "ExtensionObject" then
      extensionobject_to_binary env fuel value
    else
      match value with
      | .vstruct c fields =>
        (match struct_to_binary env fuel c fields with
         | none => none
         | some (bs, _) => some bs)
      | .vnodeid nd => nodeid_to_binary nd
      | .vvariant v => (variant_to_binary env fuel v).1
      | .vheader h => header_to_binary h
      | .vextobj e => extobj_own_binary e
      | _ => none

/-- pack_uatype_array(vtype, array): absent encodes as the 4 bytes of -1,
else a 4-byte length then each element via pack_uatype. -/
def pack_uatype_array (env : Env) : Nat → VType → Option (List UaVal) →
    Option (List Nat)
  | 0, _, _ => none
  | _ + 1, _, none => some [255, 255, 255, 255]
  | fuel + 1, vtype, some arr =>
    match pack_uatype_list env fuel vtype arr with
    | none => none
    | some bs =>
      match packIntLE 4 (Int.ofNat arr.length) with
      | none => none
      | some lenB => some (lenB ++ bs)

/-- Element loop of pack_uatype_array. -/
def pack_uatype_list (env : Env) : Nat → VType → List UaVal → Option (List Nat)
  | 0, _, _ => none
  | _ + 1, _, [] => some []
  | fuel + 1, vtype, x :: xs =>
    match pack_uatype env fuel vtype x with
    | none => none
    | some bs =>
      match pack_uatype_list env fuel vtype xs with
      | none => none
      | some bs2 => some (bs ++ bs2)

/-- extensionobject_to_binary(obj): a generic ExtensionObject carrier uses
its own encoding; None encodes with the zero TypeId of the default NodeId,
Encoding 0 and no body; otherwise the TypeId comes from the class-name
registry, Encoding is 1, and the body is the generic encoding of the
value, emitted as a length-prefixed byte string when non-empty (the
falsy-body test of the source also skips an empty body). -/
def extensionobject_to_binary (env : Env) : Nat → UaVal → Option (List Nat)
  | 0, _ => none
  | fuel + 1, obj =>
    match obj with
    | .vextobj e => extobj_own_binary e
    | .vnone =>
      (match to_binary env fuel (.vnodeid defaultNodeId) none with
       | none => none
       | some (tb, _) =>
         match packUIntLE 1 0 with
         | none => none
         | some eb => some (tb ++ eb))
    | .vstruct c fields =>
      (match env.extension_object_ids c.name with
       | none => none
       | some typeId =>
         match to_binary env fuel (.vstruct c fields) none with
         | none => none
         | some (bodyBs, _) =>
           match to_binary env fuel (.vnodeid typeId) none with
           | none => none
           | some (tb, _) =>
             match packUIntLE 1 1 with
             | none => none
             | some eb =>
               if bodyBs = [] then some (tb ++ eb)
               else
                 match Bytes_pack (some bodyBs) with
                 | none => none
                 | some bb => some (tb ++ eb ++ bb))
    | _ => none

end

mutual

/-- from_binary(uatype, data): a tag starting with ListOf reads a 4-byte
count and runs the element loop (see listof_from_binary for the argument
swap of the source); a primitive tag unpacks via the primitive set; the
NodeId and Variant tags go to their codecs; anything else goes to
struct_from_binary. A non-string uatype (as produced by the swapped
recursive call) skips every tag test — the class-identity comparisons of
the source compare unequal — and falls through to struct_from_binary.
Cursor reads require the data argument to actually be a buffer. -/
def from_binary (env : Env) : Nat → PyArg → PyArg → Except Err (UaVal × PyArg)
  | 0, _, _ => .error .fuelExhausted
  | fuel + 1, .tag s, d =>
    (match listOfTag s with
     | some elemT =>
       (match d with
        | .buf b =>
          ebind (unpackIntLE 4 b) fun p =>
          ebind (listof_from_binary env fuel elemT p.1.toNat p.2) fun q =>
          .ok (.vlist q.1, .buf q.2)
        | _ => .error .typeError)
     | none =>
       if isPrimName s then
         (match d with
          | .buf b => ebind (primitives_unpack s b) fun p => .ok (p.1, .buf p.2)
          | _ => .error .typeError)
       else if s = "NodeId" then
         (match d with
          | .buf b => ebind (nodeid_from_binary b) fun p => .ok (.vnodeid p.1, .buf p.2)
          | _ => .error .typeError)
       else if s = "Variant" then
         (match d with
          | .buf b =>
            ebind (variant_from_binary env fuel b) fun p => .ok (.vvariant p.1, .buf p.2)
          | _ => .error .typeError)
       else struct_from_binary env fuel (.tag s) d)
  | fuel + 1, .buf b, d => struct_from_binary env fuel (.buf b) d
  | fuel + 1, .cls c, d => struct_from_binary env fuel (.cls c) d

/-- The element loop of the ListOf branch of from_binary. The source line
is res.append(from_binary(data, uatype[6:])): the recursive call passes
the cursor in the uatype position and the element tag in the data
position (the parameters of from_binary are (uatype, data) in that
order), so for every positive count the first iteration dispatches on the
buffer, reaches struct_from_binary, and fails when the buffer is called
as a class; the real cursor is never advanced by the faulty call. -/
def listof_from_binary (env : Env) : Nat → String → Nat → List Nat →
    Except Err (List UaVal × List Nat)
  | 0, _, _, _ => .error .fuelExhausted
  | _ + 1, _, 0, b => .ok ([], b)
  | fuel + 1, elemT, n + 1, b =>
    ebind (from_binary env fuel (.buf b) (.tag elemT)) fun p =>
    ebind (listof_from_binary env fuel elemT n b) fun q =>
    .ok (p.1 :: q.1, q.2)

/-- struct_from_binary(objtype, data): resolve a string tag through the
class namespace (getattr(ua, objtype)), instantiate the zero-valued record
from the class defaults, then run the field loop. Calling a buffer as a
class raises TypeError. -/
def struct_from_binary (env : Env) : Nat → PyArg → PyArg →
    Except Err (UaVal × PyArg)
  | 0, _, _ => .error .fuelExhausted
  | fuel + 1, objtype, d =>
    match objtype with
    | .tag s =>
      (match env.classes s with
       | none => .error .attributeError
       | some c =>
         ebind (struct_fields_from_binary env fuel c c.ua_types c.defaults d) fun p =>
         .ok (.vstruct c p.1, p.2))
    | .cls c =>
      ebind (struct_fields_from_binary env fuel c c.ua_types c.defaults d) fun p =>
      .ok (.vstruct c p.1, p.2)
    | .buf _ => .error .typeError

/-- The field loop of struct_from_binary: fold the field step over the
declared fields in order. -/
def struct_fields_from_binary (env : Env) : Nat → ClassDesc →
    List (String × String) → List (String × UaVal) → PyArg →
    Except Err (List (String × UaVal) × PyArg)
  | 0, _, _, _, _ => .error .fuelExhausted
  | _ + 1, _, [], fields, d => .ok (fields, d)
  | fuel + 1, c, fd :: rest, fields, d =>
    ebind (struct_field_step env fuel c (fields, d) fd) fun st2 =>
    struct_fields_from_binary env fuel c rest st2.1 st2.2

/-- One iteration of the field loop of struct_from_binary: if the record
declares switches and this field is switch-guarded and the bit of its
(already decoded or default) container value is unset, skip the field —
leaving its default value and consuming no bytes; otherwise decode via
from_binary(uatype, data) (with the arguments in the correct order at this
call site) and store the value. -/
def struct_field_step (env : Env) : Nat → ClassDesc →
    (List (String × UaVal) × PyArg) → (String × String) →
    Except Err (List (String × UaVal) × PyArg)
  | 0, _, _, _ => .error .fuelExhausted
  | fuel + 1, c, st, fd =>
    match c.ua_switches with
    | some sw =>
      (match lookupSw sw fd.1 with
       | some (container_name, idx) =>
         (match lookupField st.1 container_name with
          | none => .error .attributeError
          | some (.vint m) =>
            if test_bit m idx = 0 then .ok st
            else
              ebind (from_binary env fuel (.tag fd.2) st.2) fun p =>
              .ok (setField st.1 fd.1 p.1, p.2)
          | some _ => .error .typeError)
       | none =>
         ebind (from_binary env fuel (.tag fd.2) st.2) fun p =>
         .ok (setField st.1 fd.1 p.1, p.2))
    | none =>
      ebind (from_binary env fuel (.tag fd.2) st.2) fun p =>
      .ok (setField st.1 fd.1 p.1, p.2)

/-- unpack_uatype(vtype, data): a primitive name unpacks via the primitive
set; an ordinal above 25 reads a raw byte string; the ExtensionObject kind
goes to the envelope codec; otherwise the class named by the kind decodes
itself (modelled from the spec: NodeId and Variant classes delegate to
their codecs, generated classes to the generic structured-record decode;
an unresolvable kind raises the DecodingError). -/
def unpack_uatype (env : Env) : Nat → VType → List Nat →
    Except Err (UaVal × List Nat)
  | 0, _, _ => .error .fuelExhausted
  | fuel + 1, vtype, data =>
    if isPrimName vtype.name then primitives_unpack vtype.name data
    else if 25 < vtype.value then
      ebind (Bytes_unpack data) fun p =>
      .ok ((match p.1 with
            | none => .vnone
            | some bs => .vbytes bs), p.2)
    else if vtype.name = "ExtensionObject" then
      extensionobject_from_binary env fuel data
    else if vtype.name = "NodeId" then
      ebind (nodeid_from_binary data) fun p => .ok (.vnodeid p.1, p.2)
    else if vtype.name = "Variant" then
      ebind (variant_from_binary env fuel data) fun p => .ok (.vvariant p.1, p.2)
    else
      match env.classes vtype.name with
      | some c =>
        ebind (struct_from_binary env fuel (.cls c) (.buf data)) fun p =>
        (match p.2 with
         | .buf rest => .ok (p.1, rest)
         | _ => .error .typeError)
      | none => .error .cannotUnpackVtype

/-- unpack_uatype_array(vtype, data): for a primitive kind, the generic
array codec of that primitive; otherwise read a 4-byte length, map -1 to
absent, and decode that many elements via unpack_uatype (a negative count
other than -1 gives the empty range). -/
def unpack_uatype_array (env : Env) : Nat → VType → List Nat →
    Except Err (Option (List UaVal) × List Nat)
  | 0, _, _ => .error .fuelExhausted
  | fuel + 1, vtype, data =>
    if isPrimName vtype.name then
      unpack_array (primitives_unpack vtype.name) data
    else
      ebind (unpackIntLE 4 data) fun p =>
      if p.1 = -1 then .ok (none, p.2)
      else
        ebind (unpack_uatype_loop env fuel vtype p.1.toNat p.2) fun q =>
        .ok (some q.1, q.2)

/-- Element loop of unpack_uatype_array. -/
def unpack_uatype_loop (env : Env) : Nat → VType → Nat → List Nat →
    Except Err (List UaVal × List Nat)
  | 0, _, _, _ => .error .fuelExhausted
  | _ + 1, _, 0, b => .ok ([], b)
  | fuel + 1, vtype, n + 1, b =>
    ebind (unpack_uatype env fuel vtype b) fun p =>
    ebind (unpack_uatype_loop env fuel vtype n p.2) fun q =>
    .ok (p.1 :: q.1, q.2)

/-- variant_from_binary(data): read the tag byte, resolve the low 6 bits
through the external ordinal table, decode an array if bit 7 is set else
one scalar, then apply the dimensions of bit 6. -/
def variant_from_binary (env : Env) : Nat → List Nat →
    Except Err (VariantVal × List Nat)
  | 0, _ => .error .fuelExhausted
  | fuel + 1, data =>
    ebind (readN 1 data) fun p0 =>
    let encoding := p0.1.headD 0
    match datatype_to_varianttype (encoding &&& 63) with
    | none => .error .valueError
    | some vtype =>
      if test_bit (Int.ofNat encoding) 7 = 0 then
        ebind (unpack_uatype env fuel vtype p0.2) fun pv =>
        variant_apply_dims env fuel vtype encoding pv.1 false pv.2
      else
        ebind (unpack_uatype_array env fuel vtype p0.2) fun pv =>
        variant_apply_dims env fuel vtype encoding
          (match pv.1 with
           | none => .vnone
           | some xs => .vlist xs) true pv.2

/-- The bit-6 epilogue of variant_from_binary: decode an Int32 array of
dimensions and re-nest the flat decoded value through reshape (whose
padding mutates only the local list here); reshape of a non-sequence or of
an empty dimension list raises. -/
def variant_apply_dims (env : Env) : Nat → VType → Nat → UaVal → Bool →
    List Nat → Except Err (VariantVal × List Nat)
  | 0, _, _, _, _, _ => .error .fuelExhausted
  | fuel + 1, vtype, encoding, value, arr, b =>
    if test_bit (Int.ofNat encoding) 6 = 0 then
      .ok (.mk vtype value none arr, b)
    else
      ebind (unpack_uatype_array env fuel ⟨"Int32", 6⟩ b) fun pd =>
      match pd.1 with
      | none => .error .typeError
      | some dimVals =>
        let dims : List Int := dimVals.map (fun v =>
          match v with
          | .vint n => n
          | _ => 0)
        match value, dims with
        | .vlist xs, d0 :: rest =>
          .ok (.mk vtype (.vlist (reshape UaVal.vlist xs (d0 :: rest)).1)
                 (some dims) arr, pd.2)
        | _, _ => .error .typeError

/-- extensionobject_from_binary(data): decode the TypeId, the Encoding
byte and the optional body; a TypeId with int Identifier 0 yields None
regardless of the body; a registered TypeId decodes the body through its
class (raising when the body is absent); anything else yields the generic
carrier with the raw body bytes. -/
def extensionobject_from_binary (env : Env) : Nat → List Nat →
    Except Err (UaVal × List Nat)
  | 0, _ => .error .fuelExhausted
  | fuel + 1, data =>
    ebind (nodeid_from_binary data) fun pt =>
    ebind (readN 1 pt.2) fun pe =>
    let Encoding := pe.1.headD 0
    ebind (eo_read_body Encoding pe.2) fun pb =>
    if identIsZero pt.1.Identifier then .ok (.vnone, pb.2)
    else
      match lookupEoClass env.extension_object_classes pt.1 with
      | some c =>
        (match pb.1 with
         | none => .error .parsingExtensionObjectWithoutData
         | some body =>
           ebind (struct_from_binary env fuel (.cls c) (.buf body)) fun p =>
           .ok (p.1, pb.2))
      | none => .ok (.vextobj ⟨pt.1, Encoding, pb.1⟩, pb.2)

end

/-- An ambient module state with empty registries, for concrete runs that
never touch the class namespace or the ExtensionObject registries. -/
def env0 : Env := ⟨fun _ => none, fun _ => none, []⟩

/-- A two-field record class: a UInt32 bitmask container Mask and an
optional Int32 field Opt guarded by bit 2 of Mask. -/
def cdescC2 : ClassDesc :=
  .mk "Rec" [("Mask", "UInt32"), ("Opt", "Int32")]
    (some [("Opt", "Mask", 2)])
    [("Mask", .vint 0), ("Opt", .vnone)]

/-- The shift mask equals 2 to the offset. -/
theorem maskI_eq (i : Nat) : maskI i = Int.ofNat (2 ^ i) := by
  simp [maskI, Nat.one_shiftLeft]

/-- Int.testBit on a natural-number cast is Nat.testBit. -/
theorem int_testBit_natCast (n : Nat) (k : Nat) :
    Int.testBit (Int.ofNat n) k = n.testBit k := rfl

/-- The bit test of the source is nonzero exactly when the corresponding
two's complement bit of the integer is set. -/
theorem test_bit_ne_zero_iff (m : Int) (i : Nat) :
    test_bit m i ≠ 0 ↔ m.testBit i = true := by
  rw [test_bit, maskI_eq]
  cases m with
  | ofNat a =>
    have h1 : Int.land (.ofNat a) (.ofNat (2 ^ i)) = Int.ofNat (a &&& 2 ^ i) := rfl
    have h2 : Int.testBit (.ofNat a) i = a.testBit i := rfl
    rw [h1, h2, Nat.and_two_pow]
    cases h : a.testBit i with
    | true =>
      simp only [h, Bool.toNat_true, Nat.one_mul]
      have hpow : (0 : Nat) < 2 ^ i := Nat.pos_pow_of_pos i (by omega)
      constructor
      · intro _
        trivial
      · intro _ hc
        rw [Int.ofNat_eq_coe] at hc
        have h3 : (2 ^ i : Nat) = 0 := by exact_mod_cast hc
        omega
    | false =>
      simp [h]
  | negSucc a =>
    have h1 : Int.land (.negSucc a) (.ofNat (2 ^ i)) = Int.ofNat (Nat.ldiff (2 ^ i) a) := rfl
    have h2 : Int.testBit (.negSucc a) i = !(a.testBit i) := rfl
    rw [h1, h2]
    constructor
    · intro hne
      have hnat : Nat.ldiff (2 ^ i) a ≠ 0 := by
        intro h0
        rw [h0] at hne
        exact hne rfl
      obtain ⟨k, hk⟩ := Nat.ne_zero_implies_bit_true hnat
      rw [Nat.testBit_ldiff, Nat.testBit_two_pow] at hk
      have hik : i = k := by
        by_contra hne2
        simp [hne2] at hk
      subst hik
      simp at hk
      simp [hk]
    · intro hb
      have ha : a.testBit i = false := by
        cases h : a.testBit i
        · rfl
        · rw [h] at hb
          simp at hb
      have hbit : (Nat.ldiff (2 ^ i) a).testBit i = true := by
        rw [Nat.testBit_ldiff, Nat.testBit_two_pow_self, ha]
        rfl
      intro h0
      rw [Int.ofNat_eq_coe] at h0
      have h4 : Nat.ldiff (2 ^ i) a = 0 := by exact_mod_cast h0
      rw [h4] at hbit
      simp [Nat.zero_testBit] at hbit

/-- ORing the mask of a bit into an integer sets that bit. -/
theorem test_bit_lor_self (m : Int) (i : Nat) :
    test_bit (Int.lor m (maskI i)) i ≠ 0 := by
  rw [test_bit_ne_zero_iff, maskI_eq, Int.testBit_lor, int_testBit_natCast,
    Nat.testBit_two_pow_self, Bool.or_true]

/-- ORing any mask into an integer never clears a set bit. -/
theorem test_bit_lor_mono (m : Int) (i j : Nat) (h : test_bit m i ≠ 0) :
    test_bit (Int.lor m (maskI j)) i ≠ 0 := by
  rw [test_bit_ne_zero_iff] at h ⊢
  rw [maskI_eq, Int.testBit_lor, int_testBit_natCast, h, Bool.true_or]

/-- Reading back the field just set. -/
theorem lookupField_setField_self (fs : List (String × UaVal)) (k : String) (v : UaVal) :
    lookupField (setField fs k v) k = some v := by
  induction fs with
  | nil => simp [setField, lookupField]
  | cons p rest ih =>
    by_cases h : p.1 = k
    · simp [setField, lookupField, h]
    · simp [setField, lookupField, h, ih]

/-- Setting one field leaves every other field unchanged. -/
theorem lookupField_setField_ne (fs : List (String × UaVal)) (k k' : String)
    (v : UaVal) (h : k' ≠ k) :
    lookupField (setField fs k v) k' = lookupField fs k' := by
  induction fs with
  | nil =>
    simp only [setField, lookupField]
    rw [if_neg (fun he : k = k' => h he.symm)]
  | cons p rest ih =>
    rcases p with ⟨k1, w⟩
    simp only [setField, lookupField]
    by_cases h1 : k1 = k
    · rw [if_pos h1]
      have hk1 : ¬ k = k' := fun he => h he.symm
      have hk2 : ¬ k1 = k' := by
        rw [h1]
        exact hk1
      simp only [lookupField]
      rw [if_neg hk1, if_neg hk2]
    · rw [if_neg h1]
      simp only [lookupField]
      by_cases h2 : k1 = k'
      · rw [if_pos h2, if_pos h2]
      · rw [if_neg h2, if_neg h2, ih]

/-- Bits set in a container survive the rest of the switch loop: every
mutation of the loop is an OR with a single-bit mask. -/
theorem applySwitchesGo_preserves :
    ∀ (sw : List (String × String × Nat)) (fields fields' : List (String × UaVal))
      (cn : String) (m : Int) (i : Nat),
      applySwitchesGo sw fields = some fields' →
      lookupField fields cn = some (.vint m) → test_bit m i ≠ 0 →
      ∃ m', lookupField fields' cn = some (.vint m') ∧ test_bit m' i ≠ 0 := by
  intro sw
  induction sw with
  | nil =>
    intro fields fields' cn m i h hl hb
    simp only [applySwitchesGo, Option.some.injEq] at h
    rw [← h]
    exact ⟨m, hl, hb⟩
  | cons e rest ih =>
    rcases e with ⟨name, cname, j⟩
    intro fields fields' cn m i h hl hb
    simp only [applySwitchesGo] at h
    split at h
    · exact Option.noConfusion h
    · split at h
      · exact ih fields fields' cn m i h hl hb
      · split at h
        · exact Option.noConfusion h
        · rename_i w heqw
          split at h
          · exact Option.noConfusion h
          · rename_i m1 heqm1
            by_cases hc : cname = cn
            · subst hc
              rw [heqw] at hl
              have hw : w = .vint m := Option.some.inj hl
              subst hw
              have hm1 : m = m1 := Option.some.inj heqm1
              subst hm1
              refine ih _ fields' cname _ i h ?_ (test_bit_lor_mono m i j hb)
              rw [lookupField_setField_self]
            · refine ih _ fields' cn m i h ?_ hb
              rw [lookupField_setField_ne _ _ _ _ (fun he => hc he.symm)]
              exact hl

/-- The switch loop sets the container bit of every switch entry whose
optional field is currently non-absent, provided that field is not itself
the container of some switch (so its value is stable during the loop). -/
theorem applySwitchesGo_sets :
    ∀ (sw : List (String × String × Nat)) (fields fields' : List (String × UaVal))
      (f cn : String) (i : Nat) (v : UaVal),
      lookupSw sw f = some (cn, i) →
      (∀ e ∈ sw, e.2.1 ≠ f) →
      lookupField fields f = some v → isNoneVal v = false →
      applySwitchesGo sw fields = some fields' →
      ∃ m', lookupField fields' cn = some (.vint m') ∧ test_bit m' i ≠ 0 := by
  intro sw
  induction sw with
  | nil =>
    intro fields fields' f cn i v hsw _ _ _ _
    simp [lookupSw] at hsw
  | cons e rest ih =>
    rcases e with ⟨g, c1, j⟩
    intro fields fields' f cn i v hsw hcont hlf hv h
    simp only [applySwitchesGo] at h
    simp only [lookupSw] at hsw
    by_cases hg : g = f
    · rw [if_pos hg] at hsw
      injection hsw with hsw2
      injection hsw2 with hc1 hj
      subst hc1
      subst hj
      rw [hg, hlf] at h
      split at h
      · exact Option.noConfusion h
      · rename_i member heqv
        have hvm : v = member := Option.some.inj heqv
        subst hvm
        split at h
        · rename_i hcond
          rw [hv] at hcond
          exact Bool.noConfusion hcond
        · split at h
          · exact Option.noConfusion h
          · rename_i w heqw
            split at h
            · exact Option.noConfusion h
            · rename_i m1 heqm1
              refine applySwitchesGo_preserves rest _ fields' c1 _ j h ?_
                (test_bit_lor_self m1 j)
              rw [lookupField_setField_self]
    · rw [if_neg hg] at hsw
      have hcont2 : ∀ e ∈ rest, e.2.1 ≠ f := fun e he =>
        hcont e (List.mem_cons_of_mem _ he)
      have hc1f : c1 ≠ f := hcont (g, c1, j) (List.mem_cons_self _ _)
      split at h
      · exact Option.noConfusion h
      · split at h
        · exact ih fields fields' f cn i v hsw hcont2 hlf hv h
        · split at h
          · exact Option.noConfusion h
          · rename_i w heqw
            split at h
            · exact Option.noConfusion h
            · rename_i m1 heqm1
              refine ih _ fields' f cn i v hsw hcont2 ?_ hv h
              rw [lookupField_setField_ne _ _ _ _ (fun he => hc1f he.symm)]
              exact hlf

/-- to_binary never changes an int value: every dispatch path for an int
either returns the argument as its post-state or fails. -/
theorem to_binary_vint_post (env : Env) (fuel : Nat) (n : Int)
    (uatype : Option String) (bs : List Nat) (v2 : UaVal)
    (h : to_binary env fuel (.vint n) uatype = some (bs, v2)) :
    v2 = .vint n := by
  cases fuel with
  | zero => exact absurd h (by simp [to_binary])
  | succ fuel =>
    simp only [to_binary] at h
    split at h
    · split at h
      · split at h
        · exact absurd h (by simp)
        · injection h with h2
          exact (Prod.mk.injEq _ _ _ _ ▸ h2 : _ ∧ _).2.symm
      · exact absurd h (by simp)
    · split at h
      · split at h
        · exact absurd h (by simp)
        · injection h with h2
          exact (Prod.mk.injEq _ _ _ _ ▸ h2 : _ ∧ _).2.symm
      · exact absurd h (by simp)

/-- The field-emission loop of struct_to_binary leaves every int-valued
attribute exactly as it found it (to_binary is the identity on ints, and
only the emitted field is re-stored). -/
theorem struct_fields_to_binary_preserves :
    ∀ (fl : List (String × String)) (env : Env) (fuel : Nat) (c : ClassDesc)
      (fields : List (String × UaVal)) (bytes : List Nat)
      (fields2 : List (String × UaVal)) (cn : String) (m : Int),
      struct_fields_to_binary env fuel c fl fields = some (bytes, fields2) →
      lookupField fields cn = some (.vint m) →
      lookupField fields2 cn = some (.vint m) := by
  intro fl
  induction fl with
  | nil =>
    intro env fuel c fields bytes fields2 cn m h hl
    cases fuel with
    | zero => exact absurd h (by simp [struct_fields_to_binary])
    | succ fuel =>
      simp only [struct_fields_to_binary, Option.some.injEq, Prod.mk.injEq] at h
      rw [← h.2]
      exact hl
  | cons fd rest ih =>
    rcases fd with ⟨name, uatype⟩
    intro env fuel c fields bytes fields2 cn m h hl
    cases fuel with
    | zero => exact absurd h (by simp [struct_fields_to_binary])
    | succ fuel =>
      simp only [struct_fields_to_binary] at h
      split at h
      · exact Option.noConfusion h
      · rename_i val heq
        split at h
        · rename_i elemT heqT
          split at h
          · exact Option.noConfusion h
          · rename_i bs1 val2 heqL
            split at h
            · exact Option.noConfusion h
            · rename_i bs2 f2 heqR
              injection h with h2
              injection h2 with hby hf2
              rw [← hf2]
              by_cases hn : name = cn
              · subst hn
                rw [heq] at hl
                have hval : val = .vint m := Option.some.inj hl
                subst hval
                exact absurd heqL (by cases fuel <;> simp [list_to_binary])
              · refine ih env fuel c _ bs2 f2 cn m heqR ?_
                rw [lookupField_setField_ne _ _ _ _ (fun he => hn he.symm)]
                exact hl
        · split at h
          · exact ih env fuel c fields bytes fields2 cn m h hl
          · split at h
            · exact Option.noConfusion h
            · rename_i bs1 val2 heqB
              split at h
              · exact Option.noConfusion h
              · rename_i bs2 f2 heqR
                injection h with h2
                injection h2 with hby hf2
                rw [← hf2]
                by_cases hn : name = cn
                · subst hn
                  rw [heq] at hl
                  have hval : val = .vint m := Option.some.inj hl
                  subst hval
                  have hpost : val2 = .vint m :=
                    to_binary_vint_post env fuel m (some uatype) bs1 val2 heqB
                  refine ih env fuel c _ bs2 f2 name m heqR ?_
                  rw [hpost, lookupField_setField_self]
                · refine ih env fuel c _ bs2 f2 cn m heqR ?_
                  rw [lookupField_setField_ne _ _ _ _ (fun he => hn he.symm)]
                  exact hl

/-- C1: the claim says the ListOf branch of from_binary decodes exactly n
elements of the element type from the cursor. In the code the recursive
call is from_binary(data, uatype[6:]) against the signature
from_binary(uatype, data), so the element call dispatches on the buffer,
reaches struct_from_binary, and calling the buffer as a class raises
TypeError: every ListOf decode with a positive count fails, for every
environment and enough fuel, even though decoding one element of the
element type from the same cursor succeeds. -/
theorem listof_from_binary_swapped_arguments :
    (∀ (env : Env) (fuel : Nat),
       from_binary env (fuel + 4) (.tag "ListOfInt32")
           (.buf [1, 0, 0, 0, 7, 0, 0, 0]) =
         .error .typeError) ∧
    from_binary env0 9 (.tag "Int32") (.buf [7, 0, 0, 0]) =
      .ok (.vint 7, .buf []) := by
  exact ⟨fun env fuel => rfl, rfl⟩

/-- C2 counterexample: the claim says encode leaves the container bit set
exactly when the optional field is non-absent. Encoding a record whose Mask
already has bit 2 set while Opt is absent succeeds and leaves bit 2 set:
the switch loop only ORs bits in and never clears them, so the direction
"bit set implies field non-absent" fails. -/
theorem struct_to_binary_preset_bit_counterexample :
    struct_to_binary env0 9 cdescC2 [("Mask", UaVal.vint 4), ("Opt", UaVal.vnone)] =
      some ([4, 0, 0, 0], [("Mask", UaVal.vint 4), ("Opt", UaVal.vnone)]) ∧
    lookupField [("Mask", UaVal.vint 4), ("Opt", UaVal.vnone)] "Opt" = some UaVal.vnone ∧
    isNoneVal UaVal.vnone = true ∧
    cdescC2.ua_switches = some [("Opt", "Mask", 2)] ∧
    test_bit 4 2 ≠ 0 := by
  refine ⟨rfl, rfl, rfl, rfl, ?_⟩
  decide

/-- C2 (amended): encoding a structured record ORs the container bit in for
every switch-guarded field whose value is non-absent (so the bit ends up
set whenever the field is non-absent, though a bit already set on entry is
never cleared for an absent field), provided the guarded field is not
itself some switch container; and one decode step for a switch-guarded
field whose already-decoded container value has the bit unset consumes no
bytes and leaves every attribute, in particular the guarded field's
default, unchanged. -/
theorem struct_switch_bit_spec :
    (∀ (env : Env) (fuel : Nat) (c : ClassDesc) (sw : List (String × String × Nat))
       (fields fields2 : List (String × UaVal)) (bytes : List Nat)
       (f cn : String) (i : Nat) (v : UaVal),
       c.ua_switches = some sw →
       lookupSw sw f = some (cn, i) →
       (∀ e ∈ sw, e.2.1 ≠ f) →
       lookupField fields f = some v →
       isNoneVal v = false →
       struct_to_binary env fuel c fields = some (bytes, fields2) →
       ∃ m', lookupField fields2 cn = some (.vint m') ∧ test_bit m' i ≠ 0) ∧
    (∀ (env : Env) (fuel : Nat) (c : ClassDesc) (sw : List (String × String × Nat))
       (st : List (String × UaVal) × PyArg) (name uatype cn : String)
       (idx : Nat) (m : Int),
       c.ua_switches = some sw →
       lookupSw sw name = some (cn, idx) →
       lookupField st.1 cn = some (.vint m) →
       test_bit m idx = 0 →
       struct_field_step env (fuel + 1) c st (name, uatype) = .ok st) := by
  constructor
  · intro env fuel c sw fields fields2 bytes f cn i v h1 h2 h3 h4 h5 h6
    cases fuel with
    | zero => exact Option.noConfusion h6
    | succ fuel =>
      simp only [struct_to_binary] at h6
      rw [h1] at h6
      split at h6
      · exact Option.noConfusion h6
      · rename_i fields1 heq1
        obtain ⟨m', hm1, hb⟩ :=
          applySwitchesGo_sets sw fields fields1 f cn i v h2 h3 h4 h5 heq1
        exact ⟨m', struct_fields_to_binary_preserves c.ua_types env fuel c
          fields1 bytes fields2 cn m' h6 hm1, hb⟩
  · intro env fuel c sw st name uatype cn idx m h1 h2 h3 h4
    simp only [struct_field_step, h1, h2, h3, h4, if_pos]

/-- C3 counterexample: the claim says the bitmask mutation of structured
encode is the only side effect on caller-owned values. Encoding a Variant
whose Value is a list but whose is_array is False mutates is_array to True
(source: variant.is_array = True in the array branch), and reshape appends
placeholder elements to the caller-owned flat list whenever it is shorter
than the product of the extents. -/
theorem frame_effects_counterexample :
    (variant_to_binary env0 9
        (VariantVal.mk ⟨"Int32", 6⟩ (.vlist [.vint 1, .vint 2]) none false)).2
      ≠ VariantVal.mk ⟨"Int32", 6⟩ (.vlist [.vint 1, .vint 2]) none false ∧
    (reshape Tree.node [Tree.leaf 1] [3]).2 ≠ [Tree.leaf 1] := by
  constructor
  · intro h
    have h2 : true = false := congrArg VariantVal.is_array h
    exact Bool.noConfusion h2
  · intro h
    have h2 : (3 : Nat) = 1 := congrArg List.length h
    omega

/-- C3 (amended): variant_to_binary returns its argument unchanged on the
scalar path but mutates is_array to True whenever is_array is already set
or the Value is a list; reshape mutates the caller-owned flat list to the
padded list, which equals the input exactly when no padding is needed
(d0 times the slice size at most the length). -/
theorem frame_effects_spec :
    (∀ (env : Env) (fuel : Nat) (var : VariantVal),
       (variant_to_binary env (fuel + 1) var).2 =
         if var.is_array || isListVal var.Value then
           VariantVal.mk var.VariantType var.Value var.Dimensions true
         else var) ∧
    (∀ (α : Type) (wrap : List α → α) (flat : List α) (d0 : Int) (rest : List Int),
       (reshape wrap flat (d0 :: rest)).2 =
         flat ++ List.replicate (padCount d0 (subsizeI rest) flat.length) (wrap [])) ∧
    (∀ (α : Type) (wrap : List α → α) (flat : List α) (d0 : Int) (rest : List Int),
       (reshape wrap flat (d0 :: rest)).2 = flat
         ↔ d0 * subsizeI rest ≤ (flat.length : Int)) := by
  refine ⟨?_, fun α wrap flat d0 rest => reshape_post wrap flat d0 rest,
    fun α wrap flat d0 rest => reshape_post_eq_iff wrap flat d0 rest⟩
  intro env fuel var
  simp only [variant_to_binary]
  split
  · rfl
  · split
    · rfl
    · split
      · rfl
      · rfl

/-- C2 witness: the encode direction at a record with Mask = 0 and Opt = 7
(bit 2 ends up set in the post-state), and the decode-skip direction at a
state with Mask = 0 and a 3-byte cursor (the step returns the state
untouched). -/
theorem struct_switch_bit_spec_witness :
    (∃ m', lookupField [("Mask", UaVal.vint 4), ("Opt", UaVal.vint 7)] "Mask" =
        some (UaVal.vint m') ∧ test_bit m' 2 ≠ 0) ∧
    struct_field_step env0 9 cdescC2
        ([("Mask", UaVal.vint 0), ("Opt", UaVal.vnone)], .buf [1, 2, 3])
        ("Opt", "Int32") =
      .ok ([("Mask", UaVal.vint 0), ("Opt", UaVal.vnone)], .buf [1, 2, 3]) := by
  constructor
  · exact struct_switch_bit_spec.1 env0 9 cdescC2 [("Opt", "Mask", 2)]
      [("Mask", UaVal.vint 0), ("Opt", UaVal.vint 7)]
      [("Mask", UaVal.vint 4), ("Opt", UaVal.vint 7)]
      [4, 0, 0, 0, 7, 0, 0, 0] "Opt" "Mask" 2 (UaVal.vint 7)
      rfl rfl (by decide) rfl rfl rfl
  · exact struct_switch_bit_spec.2 env0 8 cdescC2 [("Opt", "Mask", 2)]
      ([("Mask", UaVal.vint 0), ("Opt", UaVal.vnone)], .buf [1, 2, 3])
      "Opt" "Int32" "Mask" 2 0 rfl rfl rfl (by decide)

/-- C7: extensionobject_to_binary of the absent value emits the two zero
bytes of the TwoByte zero NodeId followed by the Encoding byte 0x00 and no
body; extensionobject_from_binary of any stream whose decoded TypeId has
Identifier exactly 0 yields the absent value regardless of any body
present (the Identifier check short-circuits before the registry); and the
three absent bytes decode back to absent with the rest of the stream
untouched. -/
theorem extensionobject_absent_roundtrip :
    (∀ (env : Env) (fuel : Nat),
       extensionobject_to_binary env (fuel + 2) .vnone = some [0, 0, 0]) ∧
    (∀ (env : Env) (fuel : Nat) (buf : List Nat) (tid : NodeIdM) (e : Nat)
       (rest : List Nat) (body : Option (List Nat)) (buf3 : List Nat),
       nodeid_from_binary buf = .ok (tid, e :: rest) →
       eo_read_body e rest = .ok (body, buf3) →
       identIsZero tid.Identifier = true →
       extensionobject_from_binary env (fuel + 1) buf = .ok (.vnone, buf3)) ∧
    (∀ (env : Env) (fuel : Nat) (rest : List Nat),
       extensionobject_from_binary env (fuel + 1) ([0, 0, 0] ++ rest) =
         .ok (.vnone, rest)) := by
  refine ⟨fun env fuel => rfl, ?_, ?_⟩
  · intro env fuel buf tid e rest body buf3 h1 h3 h4
    have step : extensionobject_from_binary env (fuel + 1) buf =
        ebind (eo_read_body e rest) (fun pb =>
          if identIsZero tid.Identifier then .ok (.vnone, pb.2)
          else
            match lookupEoClass env.extension_object_classes tid with
            | some c =>
              (match pb.1 with
               | none => .error .parsingExtensionObjectWithoutData
               | some body2 =>
                 ebind (struct_from_binary env fuel (.cls c) (.buf body2)) fun p =>
                 .ok (p.1, pb.2))
            | none => .ok (.vextobj ⟨tid, e, pb.1⟩, pb.2)) := by
      simp only [extensionobject_from_binary]
      rw [h1]
      rfl
    rw [step, h3]
    simp [ebind, h4]
  · intro env fuel rest
    show extensionobject_from_binary env (fuel + 1) (0 :: 0 :: 0 :: rest) =
      .ok (.vnone, rest)
    with_unfolding_all rfl

/-- C7 witness: the Identifier-zero decode direction at a stream whose
Encoding byte is 1 with a 2-byte body present: the hypotheses hold by
computation and the decode still yields the absent value. -/
theorem extensionobject_absent_roundtrip_witness :
    (nodeid_from_binary [0, 0, 1, 2, 0, 0, 0, 9, 9] =
        .ok (⟨.TwoByte, 0, .inum 0, none, none⟩, 1 :: [2, 0, 0, 0, 9, 9]) ∧
     eo_read_body 1 [2, 0, 0, 0, 9, 9] = .ok (some [9, 9], []) ∧
     identIsZero (Ident.inum 0) = true) ∧
    extensionobject_from_binary env0 9 [0, 0, 1, 2, 0, 0, 0, 9, 9] =
      .ok (.vnone, []) := by
  refine ⟨⟨rfl, rfl, rfl⟩, ?_⟩
  exact extensionobject_absent_roundtrip.2.1 env0 8 [0, 0, 1, 2, 0, 0, 0, 9, 9]
    ⟨.TwoByte, 0, .inum 0, none, none⟩ 1 [2, 0, 0, 0, 9, 9] (some [9, 9]) []
    rfl rfl rfl

end UaBinary
